import Mathlib

/-!
Verification development for the search / resolution engine
(`lbry/wallet/server/db/elastic_search.py`): a shallow embedding of the
document codec (`extract_doc` / `expand_result`), the query compiler
(`expand_query`), the censorship applier (`apply_filters`), the search
entry point and the URL resolver, together with theorems about them.

Python's dynamically typed values are modelled by the inductive `PyVal`
below; a raised exception is modelled by an `Option`-valued function
returning `Option.none`.  Python `dict`s are modelled as insertion-ordered
association lists (`List (String × PyVal)`), matching CPython semantics:
updating an existing key keeps its position, a new key is appended.
-/

set_option maxHeartbeats 1000000

/-- A dynamically typed Python value: `None`, `bool`, `int`, `Decimal`,
`str`, `bytes`, `list` or (string-keyed) `dict`. -/
inductive PyVal where
  | none
  | bool (b : Bool)
  | int (n : Int)
  | dec (q : Rat)
  | str (s : String)
  | bytes (bs : List Nat)
  | list (xs : List PyVal)
  | dict (entries : List (String × PyVal))

/-- Python truthiness (`bool(v)`). -/
def truthy : PyVal → Bool
  | .none => false
  | .bool b => b
  | .int n => n != 0
  | .dec q => q != 0
  | .str s => s != ""
  | .bytes bs => !bs.isEmpty
  | .list xs => !xs.isEmpty
  | .dict d => !d.isEmpty

def isListPy : PyVal → Bool
  | .list _ => true
  | _ => false

def isStrPy : PyVal → Bool
  | .str _ => true
  | _ => false

/-- `len(v)` for values that support it; `Option.none` models `TypeError`. -/
def pyLen : PyVal → Option Nat
  | .str s => some s.data.length
  | .bytes bs => some bs.length
  | .list xs => some xs.length
  | .dict d => some d.length
  | _ => Option.none

/-- `int(v)`: identity on ints, `0`/`1` on bools, string parsing on
decimal strings; everything else raises. -/
def pyToInt : PyVal → Option Int
  | .int n => some n
  | .bool b => some (if b then 1 else 0)
  | .str s => s.toInt?
  | _ => Option.none

/-- Iterating a Python value (`for x in v`): lists yield their items,
strings their characters (as 1-char strings), bytes their byte values,
dicts their keys; other values raise `TypeError`. -/
def pyIter : PyVal → Option (List PyVal)
  | .list xs => some xs
  | .str s => some (s.data.map (fun c => PyVal.str (String.mk [c])))
  | .bytes bs => some (bs.map (fun b => PyVal.int (Int.ofNat b)))
  | .dict d => some (d.map (fun kv => PyVal.str kv.1))
  | _ => Option.none

def asStrPy : PyVal → Option String
  | .str s => some s
  | _ => Option.none

/-! ### Python dicts as insertion-ordered association lists -/

/-- `d[k]` / `d.get(k)`: first (and in a real dict, only) binding of `k`. -/
def alookup (d : List (String × PyVal)) (k : String) : Option PyVal :=
  match d with
  | [] => Option.none
  | kv :: rest => if kv.1 = k then some kv.2 else alookup rest k

/-- `k in d`. -/
def acontains (d : List (String × PyVal)) (k : String) : Bool :=
  (alookup d k).isSome

/-- `d.get(k)` with default `None`. -/
def agetD (d : List (String × PyVal)) (k : String) : PyVal :=
  (alookup d k).getD PyVal.none

/-- `d[k] = v`: replace in place if the key exists, else append. -/
def aset (d : List (String × PyVal)) (k : String) (v : PyVal) :
    List (String × PyVal) :=
  if acontains d k then d.map (fun kv => if kv.1 = k then (k, v) else kv)
  else d ++ [(k, v)]

/-- `d.pop(k)` (the removal part). -/
def apop (d : List (String × PyVal)) (k : String) : List (String × PyVal) :=
  d.filter (fun kv => kv.1 ≠ k)

/-- Building a dict from a sequence of key/value pairs, as a dict
comprehension does: later duplicates overwrite in place. -/
def adictOf (l : List (String × PyVal)) : List (String × PyVal) :=
  l.foldl (fun d kv => aset d kv.1 kv.2) []

/-! ### String helpers (over `List Char`, so that everything reduces) -/

def isPrefixChars : List Char → List Char → Bool
  | [], _ => true
  | _ :: _, [] => false
  | p :: ps, c :: cs => p = c && isPrefixChars ps cs

/-- Leftmost non-overlapping replacement, as Python `str.replace`.  The
fuel argument (initially the input length, which bounds the number of
steps, since a non-empty match consumes at least one character) keeps the
recursion structural so that terms reduce definitionally. -/
def replCharsF (pat rep : List Char) : Nat → List Char → List Char
  | _, [] => []
  | 0, l => l
  | fuel + 1, c :: cs =>
    if pat ≠ [] ∧ isPrefixChars pat (c :: cs) then
      rep ++ replCharsF pat rep fuel ((c :: cs).drop pat.length)
    else
      c :: replCharsF pat rep fuel cs

def strReplace (s pat rep : String) : String :=
  String.mk (replCharsF pat.data rep.data s.data.length s.data)

def strEndsWith (s pat : String) : Bool :=
  isPrefixChars pat.data.reverse s.data.reverse

def strStartsWith (s pat : String) : Bool :=
  isPrefixChars pat.data s.data

def containsChars (pat : List Char) : List Char → Bool
  | [] => pat.isEmpty
  | c :: cs => isPrefixChars pat (c :: cs) || containsChars pat cs

/-- Python `pat in s` (substring containment). -/
def strContains (s pat : String) : Bool :=
  containsChars pat.data s.data

def strTake (s : String) (n : Nat) : String := String.mk (s.data.take n)

def strDrop (s : String) (n : Nat) : String := String.mk (s.data.drop n)

def slen (s : String) : Nat := s.data.length

/-! ### Hex encoding (`binascii.hexlify` / `unhexlify`) -/

def toHexDigit (n : Nat) : Char :=
  if n < 10 then Char.ofNat (48 + n) else Char.ofNat (97 + n - 10)

def fromHexDigit (c : Char) : Option Nat :=
  if 48 ≤ c.toNat ∧ c.toNat ≤ 57 then some (c.toNat - 48)
  else if 97 ≤ c.toNat ∧ c.toNat ≤ 102 then some (c.toNat - 97 + 10)
  else if 65 ≤ c.toNat ∧ c.toNat ≤ 70 then some (c.toNat - 65 + 10)
  else Option.none

/-- `hexlify(bs).decode()` character list: two lowercase hex digits per byte. -/
def hexChars : List Nat → List Char
  | [] => []
  | b :: bs => toHexDigit (b / 16) :: toHexDigit (b % 16) :: hexChars bs

def hexStr (bs : List Nat) : String := String.mk (hexChars bs)

def unhexChars : List Char → Option (List Nat)
  | [] => some []
  | [_] => Option.none
  | c1 :: c2 :: rest => do
    let hi ← fromHexDigit c1
    let lo ← fromHexDigit c2
    let tl ← unhexChars rest
    pure ((hi * 16 + lo) :: tl)

/-- `binascii.unhexlify` on a string. -/
def unhexlify (s : String) : Option (List Nat) := unhexChars s.data

/-- `binascii.unhexlify` applied to a Python value: accepts `str` and
(ASCII) `bytes`; other types raise. -/
def unhexVal : PyVal → Option (List Nat)
  | .str s => unhexChars s.data
  | .bytes bs => unhexChars (bs.map Char.ofNat)
  | _ => Option.none

/-- Every element is a byte value. -/
def allBytes (bs : List Nat) : Prop := ∀ b ∈ bs, b < 256

/-! ### Little-endian 32-bit pack/unpack (`struct.pack/unpack '<I'`) -/

/-- `struct.unpack('<I', bs)[0]`: requires exactly four bytes. -/
def unpackLE32 : List Nat → Option Nat
  | [a, b, c, d] => some (a + 256 * b + 65536 * c + 16777216 * d)
  | _ => Option.none

/-- `struct.pack('<I', n)`: requires `0 ≤ n < 2^32`. -/
def packLE32 (n : Nat) : Option (List Nat) :=
  if n < 4294967296 then
    some [n % 256, n / 256 % 256, n / 65536 % 256, n / 16777216 % 256]
  else Option.none

/-! ### Document codec (`extract_doc`, lines 287-309; `expand_result`, lines 471-493)

`extract_doc` receives the indexer's binary claim document (a dict); the
fields it touches are modelled as the record `BinaryDoc`, each field a
`PyVal` exactly as the dict entry would hold it.  The result's `doc`
payload is `IndexedSource` (the `_source` the backend stores), and
`expand_result` decodes a `_source` back, producing `ExpandedDoc`. -/

/-- The codec-touched fields of the binary claim document fed to
`extract_doc`.  `claim_type` / `stream_type` model `doc.get(key, 0)`:
an absent key is `PyVal.none` (both behave identically under `or 0`). -/
structure BinaryDoc where
  claim_hash : PyVal
  reposted_claim_hash : PyVal
  channel_hash : PyVal
  censoring_channel_hash : PyVal
  txo_hash : PyVal
  is_controlling : PyVal
  signature : PyVal
  signature_digest : PyVal
  public_key_bytes : PyVal
  public_key_hash : PyVal
  signature_valid : PyVal
  claim_type : PyVal
  stream_type : PyVal

/-- The `_source` document written to the index (output of `extract_doc`). -/
structure IndexedSource where
  claim_id : String
  reposted_claim_id : PyVal
  channel_id : PyVal
  censoring_channel_hash : PyVal
  tx_id : String
  tx_nout : Nat
  is_controlling : Bool
  signature : PyVal
  signature_digest : PyVal
  public_key_bytes : PyVal
  public_key_hash : PyVal
  signature_valid : Bool
  claim_type : PyVal
  stream_type : Int

/-- The upsert action returned by `extract_doc`. -/
structure UpsertAction where
  doc : IndexedSource
  es_id : String
  es_index : String
  op_type : String
  doc_as_upsert : Bool

/-- `hexlify(v[::-1]).decode()`: defined on `bytes`, raises otherwise. -/
def hexRev : PyVal → Option String
  | .bytes bs => some (hexStr bs.reverse)
  | _ => Option.none

/-- `hexlify(v or b'').decode() or None` (the signature-triplet idiom). -/
def hexOrNone (v : PyVal) : Option PyVal :=
  let v' := if truthy v then v else PyVal.bytes []
  match v' with
  | .bytes bs =>
    let s := hexStr bs
    some (if s = "" then PyVal.none else PyVal.str s)
  | _ => Option.none

/-- `extract_doc(doc, index)` (lines 287-309). -/
def extract_doc (doc : BinaryDoc) (index : String) : Option UpsertAction := do
  let claim_id ← hexRev doc.claim_hash
  let reposted_claim_id ←
    match doc.reposted_claim_hash with
    | PyVal.none => some PyVal.none
    | v => (hexRev v).map PyVal.str
  let channel_id ←
    if truthy doc.channel_hash then (hexRev doc.channel_hash).map PyVal.str
    else some doc.channel_hash
  let censoring ←
    if truthy doc.censoring_channel_hash then
      (hexRev doc.censoring_channel_hash).map PyVal.str
    else some doc.censoring_channel_hash
  let txo ← match doc.txo_hash with
    | .bytes t => some t
    | _ => Option.none
  let tx_id := hexStr ((txo.take 32).reverse)
  let tx_nout ← unpackLE32 (txo.drop 32)
  let signature ← hexOrNone doc.signature
  let signature_digest ← hexOrNone doc.signature_digest
  let public_key_bytes ← hexOrNone doc.public_key_bytes
  let public_key_hash ← hexOrNone doc.public_key_hash
  let stream_type ← pyToInt
    (if truthy doc.stream_type then doc.stream_type else PyVal.int 0)
  pure {
    doc := {
      claim_id := claim_id
      reposted_claim_id := reposted_claim_id
      channel_id := channel_id
      censoring_channel_hash := censoring
      tx_id := tx_id
      tx_nout := tx_nout
      is_controlling := truthy doc.is_controlling
      signature := signature
      signature_digest := signature_digest
      public_key_bytes := public_key_bytes
      public_key_hash := public_key_hash
      signature_valid := truthy doc.signature_valid
      claim_type := if truthy doc.claim_type then doc.claim_type else PyVal.int 0
      stream_type := stream_type }
    es_id := claim_id
    es_index := index
    op_type := "update"
    doc_as_upsert := true }

/-- A decoded search result (the `_source` after `expand_result`'s
in-place mutation, lines 479-489): all stored fields, plus the restored
binary fields. -/
structure ExpandedDoc where
  claim_id : String
  reposted_claim_id : PyVal
  channel_id : PyVal
  censoring_channel_hash : PyVal
  tx_id : String
  tx_nout : Nat
  is_controlling : Bool
  signature : PyVal
  signature_digest : PyVal
  public_key_bytes : PyVal
  public_key_hash : PyVal
  signature_valid : Bool
  claim_type : PyVal
  stream_type : Int
  claim_hash : PyVal
  reposted_claim_hash : PyVal
  channel_hash : PyVal
  txo_hash : PyVal
  tx_hash : PyVal

/-- The per-result decoding step of `expand_result` (lines 479-489): the
body run for a hit that carries a `_source` and no `inner_hits`.  (In the
source, hits carrying collapse `inner_hits` are first flattened
recursively and their leaf hits take this same path.) -/
def expand_result_one (r : IndexedSource) : Option ExpandedDoc := do
  let ch ← unhexlify r.claim_id
  let reposted ←
    if truthy r.reposted_claim_id then
      (unhexVal r.reposted_claim_id).map (fun b => PyVal.bytes b.reverse)
    else some PyVal.none
  let channel ←
    if truthy r.channel_id then
      (unhexVal r.channel_id).map (fun b => PyVal.bytes b.reverse)
    else some PyVal.none
  let txbytes ← unhexlify r.tx_id
  let packed ← packLE32 r.tx_nout
  let censoring ←
    if truthy r.censoring_channel_hash then
      (unhexVal r.censoring_channel_hash).map (fun b => PyVal.bytes b.reverse)
    else some r.censoring_channel_hash
  pure {
    claim_id := r.claim_id
    reposted_claim_id := r.reposted_claim_id
    channel_id := r.channel_id
    censoring_channel_hash := censoring
    tx_id := r.tx_id
    tx_nout := r.tx_nout
    is_controlling := r.is_controlling
    signature := r.signature
    signature_digest := r.signature_digest
    public_key_bytes := r.public_key_bytes
    public_key_hash := r.public_key_hash
    signature_valid := r.signature_valid
    claim_type := r.claim_type
    stream_type := r.stream_type
    claim_hash := PyVal.bytes ch.reverse
    reposted_claim_hash := reposted
    channel_hash := channel
    txo_hash := PyVal.bytes (txbytes.reverse ++ packed)
    tx_hash := PyVal.bytes txbytes.reverse }

/-- `expand_result` over a list of plain hits (each hit's `_source`). -/
def expand_result (results : List IndexedSource) : Option (List ExpandedDoc) :=
  match results with
  | [] => some []
  | r :: rest => do
    let e ← expand_result_one r
    let es ← expand_result rest
    pure (e :: es)

/-! ### Query compiler (`expand_query`, lines 338-468) and its tables -/

/-- Line 312-319. -/
def FIELDS : List String :=
  ["is_controlling", "last_take_over_height", "claim_id", "claim_name",
   "normalized", "tx_position", "amount", "timestamp", "creation_timestamp",
   "height", "creation_height", "activation_height", "expiration_height",
   "release_time", "short_url", "canonical_url", "title", "author",
   "description", "claim_type", "reposted", "stream_type", "media_type",
   "fee_amount", "fee_currency", "duration", "reposted_claim_hash",
   "censor_type", "claims_in_channel", "channel_join", "signature_valid",
   "effective_amount", "support_amount", "trending_group", "trending_mixed",
   "trending_local", "trending_global", "channel_id", "tx_id", "tx_nout",
   "signature", "signature_digest", "public_key_bytes", "public_key_hash",
   "public_key_id", "_id", "tags", "reposted_claim_id"]

/-- Line 320-322. -/
def TEXT_FIELDS : List String :=
  ["author", "canonical_url", "channel_id", "claim_name", "description",
   "claim_id", "media_type", "normalized", "public_key_bytes",
   "public_key_hash", "short_url", "signature", "signature_digest",
   "stream_type", "title", "tx_id", "fee_currency", "reposted_claim_id",
   "tags"]

/-- Line 323-330. -/
def RANGE_FIELDS : List String :=
  ["height", "creation_height", "activation_height", "expiration_height",
   "timestamp", "creation_timestamp", "duration", "release_time",
   "fee_amount", "tx_position", "channel_join", "reposted",
   "limit_claims_per_channel", "amount", "effective_amount",
   "support_amount", "trending_group", "trending_mixed", "censor_type",
   "trending_local", "trending_global"]

/-- Line 331-335: `REPLACEMENTS.get(key, key)`. -/
def REPLACEMENTS (k : String) : String :=
  match k with
  | "name" => "normalized"
  | "txid" => "tx_id"
  | "claim_hash" => "_id"
  | _ => k

/-- Modelled from the spec: `CLAIM_TYPES` lives in
`lbry.wallet.server.db.common` (not part of this source file); the spec's
§3 gives the byte enum stream / channel / repost / collaboration. -/
def CLAIM_TYPES (s : String) : Option Int :=
  match s with
  | "stream" => some 1
  | "channel" => some 2
  | "repost" => some 3
  | "collaboration" => some 4
  | _ => Option.none

/-- Modelled from the spec: `STREAM_TYPES` lives in
`lbry.wallet.server.db.common`; the spec's §3 gives the byte enum
video / audio / image / document / binary / model. -/
def STREAM_TYPES (s : String) : Option Int :=
  match s with
  | "video" => some 1
  | "audio" => some 2
  | "image" => some 3
  | "document" => some 4
  | "binary" => some 5
  | "model" => some 6
  | _ => Option.none

/-- Modelled from the spec: `normalize_name` lives in `lbry.schema.url`;
the spec's §3 describes it as case and diacritic normalization of the name.
Case folding is modelled; diacritic folding is external detail no claim
depends on. -/
def normalize_name (s : String) : String :=
  String.mk (s.data.map Char.toLower)

def omapM {α β : Type} (f : α → Option β) : List α → Option (List β)
  | [] => some []
  | x :: xs => do
    let y ← f x
    let ys ← omapM f xs
    pure (y :: ys)

/-- Modelled from the spec: `clean_tags` lives in `lbry.schema.tags`; the
spec's §3 describes tags as "set of strings, tag-cleaned".  Cleaning is
modelled as lowercasing each (string) tag and dropping empties. -/
def clean_tags (v : PyVal) : Option (List PyVal) := do
  let items ← pyIter v
  let strs ← omapM asStrPy items
  pure ((strs.map (fun s => String.mk (s.data.map Char.toLower))).filter
    (fun s => s ≠ "") |>.map PyVal.str)

def b58Alphabet : List Char :=
  "123456789ABCDEFGHJKLMNPQRSTUVWXYZabcdefghijkmnopqrstuvwxyz".data

def b58Value (c : Char) : Option Nat :=
  b58Alphabet.indexOf? c

def natToBytesAux : Nat → List Nat → List Nat
  | 0, acc => acc
  | n + 1, acc => natToBytesAux ((n + 1) / 256) ((n + 1) % 256 :: acc)
decreasing_by exact Nat.div_lt_self (Nat.succ_pos n) (by omega)

def natToBytes (n : Nat) : List Nat := natToBytesAux n []

/-- Modelled from the spec: `Base58.decode` lives in `lbry.crypto.base58`;
§4.2 says `public_key_id` is "Base58-check decoded, middle 20 bytes taken,
lowercased hex".  Standard base-58 big-integer decoding to big-endian
bytes. -/
def base58_decode (s : String) : Option (List Nat) := do
  let vals ← omapM b58Value s.data
  pure (natToBytes (vals.foldl (fun a v => a * 58 + v) 0))

def isDigitChar (c : Char) : Bool := 48 ≤ c.toNat && c.toNat ≤ 57

def digitsToNat (l : List Char) : Nat :=
  l.foldl (fun a c => a * 10 + (c.toNat - 48)) 0

def parseUnsignedDec (l : List Char) : Option Rat :=
  let ip := l.takeWhile isDigitChar
  let rest := l.dropWhile isDigitChar
  match rest with
  | [] => if ip.isEmpty then Option.none else some ((digitsToNat ip : Nat) : Rat)
  | c :: fp =>
    if c = '.' then
      (if fp.all isDigitChar && (!ip.isEmpty || !fp.isEmpty) then
        some (((digitsToNat ip : Nat) : Rat) +
          ((digitsToNat fp : Nat) : Rat) / ((10 : Rat) ^ fp.length))
      else Option.none)
    else Option.none

/-- `decimal.Decimal(s)` on the grammar `[+|-] digits [. digits]`
(exponent forms are not exercised by this code base); the empty string
raises. -/
def parseDecimal (s : String) : Option Rat :=
  match s.data with
  | [] => Option.none
  | c :: r =>
    if c = '+' then parseUnsignedDec r
    else if c = '-' then (parseUnsignedDec r).map Neg.neg
    else parseUnsignedDec (c :: r)

/-- `Decimal(v)` for the value types that can reach it. -/
def pyDecimal : PyVal → Option Rat
  | .str s => parseDecimal s
  | .int n => some ((n : Int) : Rat)
  | .bool b => some (if b then 1 else 0)
  | .dec q => some q
  | _ => Option.none

/-- Line 379: `ops = {'<=': 'lte', '>=': 'gte', '<': 'lt', '>': 'gt'}`. -/
def opsLookup (o : String) : Option String :=
  match o with
  | "<=" => some "lte"
  | ">=" => some "gte"
  | "<" => some "lt"
  | ">" => some "gt"
  | _ => Option.none

/-- `value[0] in ops` on a non-empty string: the only 1-character keys of
`ops` are `<` and `>`. -/
def headIsOp (s : String) : Bool :=
  match s.data with
  | [] => false
  | c :: _ => c = '<' || c = '>'

/-- Lines 383-384: `operator_length = 2 if value[:2] in ops else 1`,
`operator, value = value[:operator_length], value[operator_length:]`. -/
def rangeSplit (s : String) : String × String :=
  let opLen := if (opsLookup (strTake s 2)).isSome then 2 else 1
  (strTake s opLen, strDrop s opLen)

/-- Accumulator of the option loop: the growing `must` / `must_not`
clause lists and the pending `collapse`. -/
structure QState where
  must : List PyVal
  must_not : List PyVal
  collapse : Option (String × PyVal)

def termClause (key : String) (v : PyVal) : PyVal :=
  PyVal.dict [("term", PyVal.dict [(key, PyVal.dict [("value", v)])])]

def termEqClause (key : String) (v : PyVal) : PyVal :=
  PyVal.dict [("term", PyVal.dict [(key, v)])]

def termsClause (key : String) (v : PyVal) : PyVal :=
  PyVal.dict [("terms", PyVal.dict [(key, v)])]

def rangeClause (key op : String) (v : PyVal) : PyVal :=
  PyVal.dict [("range", PyVal.dict [(key, PyVal.dict [(op, v)])])]

def prefixClause (v : PyVal) : PyVal :=
  PyVal.dict [("prefix", PyVal.dict [("claim_id", v)])]

/-- Lines 388-393: the `terms` / `term` tail of the FIELDS branch
(with the `fee_amount` thousandths scaling of lines 391-392). -/
def emitPlain (st : QState) (key : String) (value : PyVal) (many : Bool) :
    Option QState :=
  if many then some { st with must := st.must ++ [termsClause key value] }
  else do
    let v ← if key = "fee_amount" then
        (pyDecimal value).map (fun d => PyVal.dec (d * 1000))
      else pure value
    pure { st with must := st.must ++ [termClause key v] }

/-- One iteration of `expand_query`'s option loop (lines 349-421). -/
def processEntry (st : QState) (kv : String × PyVal) : Option QState := do
  let key := strReplace kv.1 "claim." ""
  let many := strEndsWith key "__in" || isListPy kv.2
  let (key, value) ←
    if many then do
      let items ← pyIter kv.2
      pure (strReplace key "__in" "", PyVal.list (items.filter truthy))
    else pure (key, kv.2)
  -- `if value is None or isinstance(value, list) and len(value) == 0: continue`
  let skip := match value with
    | PyVal.none => true
    | PyVal.list xs => xs.isEmpty
    | _ => false
  if skip then pure st
  else
    let key := REPLACEMENTS key
    if FIELDS.contains key then do
      let value ←
        if key = "claim_type" then
          match value with
          | PyVal.str s => (CLAIM_TYPES s).map PyVal.int
          | v => do
            let items ← pyIter v
            let codes ← omapM (fun it => do
              let s ← asStrPy it
              (CLAIM_TYPES s).map PyVal.int) items
            pure (PyVal.list codes)
        else pure value
      let value ←
        if key = "_id" then
          -- only a list of byte hashes hexes successfully; a scalar (or a
          -- list with non-bytes items) raises in `hexlify(item[::-1])`
          match value with
          | PyVal.list xs => (omapM (fun it =>
              match it with
              | PyVal.bytes bs => some (PyVal.str (hexStr bs.reverse))
              | _ => Option.none) xs).map PyVal.list
          | _ => Option.none
        else pure value
      let shortId ←
        if !many && (key = "_id" || key = "claim_id") then do
          let l ← pyLen value
          pure (decide (l < 20))
        else pure false
      let (key, value) ←
        if key = "public_key_id" then do
          let s ← asStrPy value
          let bs ← base58_decode s
          pure ("public_key_hash", PyVal.str (hexStr ((bs.drop 1).take 20)))
        else pure (key, value)
      if key = "signature_valid" then pure st  -- line 376: handled later
      else
        let key := if TEXT_FIELDS.contains key then key ++ ".keyword" else key
        if shortId then
          pure { st with must := st.must ++ [prefixClause value] }
        else if RANGE_FIELDS.contains key && isStrPy value then
          match value with
          | PyVal.str s =>
            match s.data with
            | [] => Option.none    -- `value[0]` on an empty string raises
            | c :: _ =>
              if c = '<' || c = '>' then do
                let operator := (rangeSplit s).1
                let rest := (rangeSplit s).2
                let v ← if key = "fee_amount" then
                    (parseDecimal rest).map (fun d => PyVal.dec (d * 1000))
                  else pure (PyVal.str rest)
                let opName ← opsLookup operator
                pure { st with must := st.must ++ [rangeClause key opName v] }
              else emitPlain st key value many
          | _ => Option.none
        else emitPlain st key value many
    else if key = "not_channel_ids" then do
      let items ← pyIter value
      pure { st with must_not := st.must_not ++ items.flatMap (fun c =>
        [termEqClause "channel_id.keyword" c, termEqClause "_id" c]) }
    else if key = "channel_ids" then
      pure { st with must := st.must ++ [termsClause "channel_id.keyword" value] }
    else if key = "claim_ids" then
      pure { st with must := st.must ++ [termsClause "claim_id.keyword" value] }
    else if key = "media_types" then
      pure { st with must := st.must ++ [termsClause "media_type.keyword" value] }
    else if key = "stream_types" then do
      let items ← pyIter value
      let codes ← omapM (fun it => do
        let s ← asStrPy it
        (STREAM_TYPES s).map PyVal.int) items
      pure { st with must := st.must ++ [termsClause "stream_type" (PyVal.list codes)] }
    else if key = "any_languages" then do
      -- the source has a second, unreachable `any_languages` branch
      -- (line 408-409); this first one is the live one
      let tags ← clean_tags value
      pure { st with must := st.must ++ [termsClause "languages" (PyVal.list tags)] }
    else if key = "all_languages" then do
      let items ← pyIter value
      pure { st with must := st.must ++ items.map (fun t => termEqClause "languages" t) }
    else if key = "any_tags" then do
      let tags ← clean_tags value
      pure { st with must := st.must ++ [termsClause "tags.keyword" (PyVal.list tags)] }
    else if key = "all_tags" then do
      let tags ← clean_tags value
      pure { st with must := st.must ++ tags.map (fun t => termEqClause "tags.keyword" t) }
    else if key = "not_tags" then do
      let tags ← clean_tags value
      pure { st with must_not := st.must_not ++ tags.map (fun t => termEqClause "tags.keyword" t) }
    else if key = "not_claim_id" then do
      let items ← pyIter value
      pure { st with must_not := st.must_not ++ items.map (fun c => termEqClause "claim_id.keyword" c) }
    else if key = "limit_claims_per_channel" then
      pure { st with collapse := some ("channel_id.keyword", value) }
    else pure st

def runEntries : QState → List (String × PyVal) → Option QState
  | st, [] => some st
  | st, kv :: rest => do
    let st' ← processEntry st kv
    runEntries st' rest

/-- Lines 339-342: the `amount_order` rewrite
(`limit=1, order_by=effective_amount, offset=int(amount_order)-1`). -/
def preamble1 (kwargs : List (String × PyVal)) :
    Option (List (String × PyVal)) :=
  if acontains kwargs "amount_order" then
    (pyToInt (agetD kwargs "amount_order")).map (fun n =>
      aset (aset (aset kwargs "limit" (PyVal.int 1))
        "order_by" (PyVal.str "effective_amount")) "offset" (PyVal.int (n - 1)))
  else some kwargs

/-- Lines 343-344: `kwargs['name'] = normalize_name(kwargs.pop('name'))`
(the pop moves the key to the end of the dict). -/
def preamble2 (kw : List (String × PyVal)) : Option (List (String × PyVal)) :=
  if acontains kw "name" then
    (asStrPy (agetD kw "name")).map (fun s =>
      aset (apop kw "name") "name" (PyVal.str (normalize_name s)))
  else some kw

/-- Lines 345-346: `if kwargs.get('is_controlling') is False: pop`. -/
def preamble3 (kw : List (String × PyVal)) : List (String × PyVal) :=
  match alookup kw "is_controlling" with
  | some (PyVal.bool false) => apop kw "is_controlling"
  | _ => kw

/-- Lines 339-346: the kwargs mutations before the option loop. -/
def preamble (kwargs : List (String × PyVal)) :
    Option (List (String × PyVal)) :=
  (preamble1 kwargs).bind (fun kw => (preamble2 kw).map preamble3)

def existsSignatureDigest : PyVal :=
  PyVal.dict [("exists", PyVal.dict [("field", PyVal.str "signature_digest")])]

def notExistsSignatureDigest : PyVal :=
  PyVal.dict [("bool", PyVal.dict [("must_not",
    PyVal.dict [("exists", PyVal.dict [("field", PyVal.str "signature_digest")])])])]

def sigValidTerm (b : Bool) : PyVal :=
  PyVal.dict [("term", PyVal.dict [("signature_valid", PyVal.bool b)])]

def sqsFields : PyVal := PyVal.list [PyVal.str "claim_name^4",
  PyVal.str "channel_name^8", PyVal.str "title^1", PyVal.str "description^.5",
  PyVal.str "author^1", PyVal.str "tags^.5"]

def sqsClause (text : PyVal) : PyVal :=
  PyVal.dict [("simple_query_string",
    PyVal.dict [("query", text), ("fields", sqsFields)])]

/-- Lines 422-425: the `must` clauses added when
`kwargs.get('has_channel_signature')` is truthy. -/
def sigMustOf (kw : List (String × PyVal)) : List PyVal :=
  if truthy (agetD kw "has_channel_signature") then
    [existsSignatureDigest] ++
      (if acontains kw "signature_valid" then
        [sigValidTerm (truthy (agetD kw "signature_valid"))] else [])
  else []

/-- Lines 426-430: the `should` disjunction fired by `signature_valid`
without a truthy `has_channel_signature`. -/
def shouldPartOf (kw : List (String × PyVal)) : Option (List PyVal) :=
  if truthy (agetD kw "has_channel_signature") then Option.none
  else if acontains kw "signature_valid" then
    some [notExistsSignatureDigest,
      sigValidTerm (truthy (agetD kw "signature_valid"))]
  else Option.none

/-- Lines 431-436: the `text` simple-query-string clause. -/
def textMustOf (kw : List (String × PyVal)) : List PyVal :=
  if truthy (agetD kw "text") then [sqsClause (agetD kw "text")] else []

/-- Lines 422-436: the signature-validity clauses and the text clause,
yielding the entries of the final `bool` sub-dict (in the key order the
source builds them: must, must_not, then should / minimum_should_match
when the signature disjunction fires). -/
def buildBool (kw : List (String × PyVal)) (st : QState) :
    List (String × PyVal) :=
  [("must", PyVal.list (st.must ++ sigMustOf kw ++ textMustOf kw)),
   ("must_not", PyVal.list st.must_not)] ++
  (match shouldPartOf kw with
   | some sh => [("should", PyVal.list sh), ("minimum_should_match", PyVal.int 1)]
   | Option.none => [])

def sortLoop : List PyVal → List PyVal → Option (List PyVal)
  | acc, [] => some acc
  | acc, it :: rest => do
    let s ← asStrPy it
    if strContains s "trending_group" then sortLoop acc rest
    else
      let isAsc := strStartsWith s "^"
      let v := if isAsc then strDrop s 1 else s
      let v := REPLACEMENTS v
      let v := if TEXT_FIELDS.contains v then v ++ ".keyword" else v
      sortLoop (acc ++ [PyVal.dict [(v, PyVal.str (if isAsc then "asc" else "desc"))]]) rest

/-- Lines 446-458: the `order_by` → `sort` compilation. -/
def sortOf (kw : List (String × PyVal)) : Option (List PyVal) :=
  if acontains kw "order_by" then do
    let items ← match agetD kw "order_by" with
      | PyVal.str s => some [PyVal.str s]
      | PyVal.list xs => some xs
      | PyVal.dict d => some (d.map (fun kvp => PyVal.str kvp.1))
      | _ => Option.none
    sortLoop [] items
  else pure []

/-- Lines 437-468: final query-object assembly. -/
def assemble (kw : List (String × PyVal)) (st : QState) : Option PyVal :=
  match sortOf kw with
  | Option.none => Option.none
  | some sortList =>
  let base := [
    ("_source", PyVal.dict [("excludes",
      PyVal.list [PyVal.str "description", PyVal.str "title"])]),
    ("query", PyVal.dict [("bool", PyVal.dict (buildBool kw st))]),
    ("sort", PyVal.list sortList)]
  let base := if acontains kw "limit" then base ++ [("size", agetD kw "limit")]
    else base
  let base := if acontains kw "offset" then base ++ [("from", agetD kw "offset")]
    else base
  let base := match st.collapse with
    | some (f, v) => base ++ [("collapse", PyVal.dict [
        ("field", PyVal.str f),
        ("inner_hits", PyVal.dict [("name", PyVal.str f), ("size", v),
          ("sort", PyVal.list sortList)])])]
    | Option.none => base
  some (PyVal.dict base)

/-- `expand_query(**kwargs)` (lines 338-468). -/
def expand_query (kwargs : List (String × PyVal)) : Option PyVal := do
  let kw ← preamble kwargs
  let st ← runEntries ⟨[], [], Option.none⟩ kw
  assemble kw st

/-! ### Censorship applier (`apply_filters` / `make_query`, lines 106-136) -/

/-- A backend request issued by `apply_filters`, in order. -/
inductive ESRequest where
  | update_by_query (index : String) (body : PyVal) (slices : Nat)
  | refresh (index : String)

/-- `d[k] = v` on a Python dict value. -/
def pySetItem (v : PyVal) (k : String) (x : PyVal) : Option PyVal :=
  match v with
  | PyVal.dict entries => some (PyVal.dict (aset entries k x))
  | _ => Option.none

/-- Lines 108-109 of `make_query`: keys and values of the binary block
map byte-reversed and hexed, assembled as a Python dict. -/
def hexDictOf (bd : List (List Nat × List Nat)) : List (String × PyVal) :=
  adictOf (bd.map (fun kv =>
    (hexStr kv.1.reverse, PyVal.str (hexStr kv.2.reverse))))

/-- `list(blockdict.keys())` of the hexed map, as query values. -/
def censorKeys (bd : List (List Nat × List Nat)) : List PyVal :=
  (hexDictOf bd).map (fun kv => PyVal.str kv.1)

/-- The painless script attached by `make_query` (lines 115-119). -/
def censorScript (ct : Nat) (key : String)
    (bd : List (List Nat × List Nat)) : PyVal :=
  PyVal.dict [
    ("source", PyVal.str ("ctx._source.censor_type=" ++ toString ct ++
      "; ctx._source.censoring_channel_hash=params[ctx._source." ++ key ++ "]")),
    ("lang", PyVal.str "painless"),
    ("params", PyVal.dict (hexDictOf bd))]

/-- `make_query` inside `apply_filters` (lines 107-120): the update body
compiled by `expand_query` over the hexed keys and the `censor_type`
bound, with the painless script attached. -/
def make_query (censor_type : Nat) (blockdict : List (List Nat × List Nat))
    (channels : Bool) : Option PyVal := do
  let update ←
    if channels then
      expand_query
        [("channel_id__in", PyVal.list (censorKeys blockdict)),
         ("censor_type", PyVal.str ("<" ++ toString censor_type))]
    else
      expand_query
        [("claim_id__in", PyVal.list (censorKeys blockdict)),
         ("censor_type", PyVal.str ("<" ++ toString censor_type))]
  pySetItem update "script"
    (censorScript censor_type (if channels then "channel_id" else "claim_id")
      blockdict)

/-- `SearchIndex.apply_filters` (lines 106-136), as the ordered trace of
backend requests it issues (each block map is a Python dict, so a
non-empty map is truthy). -/
def apply_filters (index : String)
    (blocked_streams blocked_channels filtered_streams filtered_channels :
      List (List Nat × List Nat)) : Option (List ESRequest) := do
  let t1 ←
    if !filtered_streams.isEmpty then do
      let q ← make_query 1 filtered_streams false
      pure [ESRequest.update_by_query index q 32, ESRequest.refresh index]
    else pure []
  let t2 ←
    if !filtered_channels.isEmpty then do
      let q1 ← make_query 1 filtered_channels false
      let q2 ← make_query 1 filtered_channels true
      pure [ESRequest.update_by_query index q1 32, ESRequest.refresh index,
            ESRequest.update_by_query index q2 32, ESRequest.refresh index]
    else pure []
  let t3 ←
    if !blocked_streams.isEmpty then do
      let q ← make_query 2 blocked_streams false
      pure [ESRequest.update_by_query index q 32, ESRequest.refresh index]
    else pure []
  let t4 ←
    if !blocked_channels.isEmpty then do
      let q1 ← make_query 2 blocked_channels false
      let q2 ← make_query 2 blocked_channels true
      pure [ESRequest.update_by_query index q1 32, ESRequest.refresh index,
            ESRequest.update_by_query index q2 32, ESRequest.refresh index]
    else pure []
  pure (t1 ++ t2 ++ t3 ++ t4)

/-! ### Search entry point (`SearchIndex.search`, lines 178-189) -/

/-- A value produced by `resolve_url`: a Python value (claim dict, `None`
or a cached value), a `LookupError`, or a `ValueError`. -/
inductive Res where
  | py (v : PyVal)
  | lookupErr (msg : String)
  | valueErr (msg : String)

/-- Python truthiness of a `resolve_url` result (exception objects are
truthy). -/
def Res.truthyRes : Res → Bool
  | .py v => truthy v
  | _ => true

/-- `isinstance(result, Iterable)`: str, bytes, list and dict are
iterable; `None`, numbers and exception objects are not. -/
def Res.iterable : Res → Bool
  | .py (PyVal.str _) => true
  | .py (PyVal.bytes _) => true
  | .py (PyVal.list _) => true
  | .py (PyVal.dict _) => true
  | _ => false

/-- `v[k]` (string subscript): defined on dicts, raises otherwise. -/
def pyGetItem (v : PyVal) (k : String) : Option PyVal :=
  match v with
  | PyVal.dict d => alookup d k
  | _ => Option.none

/-- The backend's answer to `client.search`: `NotFoundError` (index
missing or without documents), or hits (their `_source`s) and the total. -/
inductive SearchOutcome where
  | notFound
  | ok (hits : List IndexedSource) (total : PyVal)

/-- `SearchIndex.search` (lines 178-189).  The awaited collaborators are
parameters: `resolveO` stands for `self.resolve_url` and `backendO` for
`self.client.search` on the compiled query. -/
def search (resolveO : PyVal → Option Res)
    (backendO : PyVal → SearchOutcome)
    (kwargs : List (String × PyVal)) :
    Option (List ExpandedDoc × Int × PyVal) :=
  let step : Option (Option (List (String × PyVal))) :=
    if acontains kwargs "channel" then
      match resolveO (agetD kwargs "channel") with
      | Option.none => Option.none
      | some r =>
        if !r.truthyRes || !r.iterable then some Option.none
        else
          match r with
          | Res.py v =>
            match pyGetItem v "claim_id" with
            | Option.none => Option.none
            | some cid => some (some (aset (apop kwargs "channel") "channel_id" cid))
          | _ => Option.none
    else some (some kwargs)
  match step with
  | Option.none => Option.none
  | some Option.none => some ([], 0, PyVal.int 0)
  | some (some kw) =>
    match expand_query kw with
    | Option.none => Option.none
    | some body =>
      match backendO body with
      | SearchOutcome.notFound => some ([], 0, PyVal.int 0)
      | SearchOutcome.ok hits total =>
        match expand_result hits with
        | Option.none => Option.none
        | some docs => some (docs, 0, total)

/-! ### URL resolver (`resolve_url` / `resolve_channel_id` /
`resolve_stream`, lines 191-266)

The URL type lives in `lbry.schema.url`, outside this source file, and is
modelled from the spec (§4.5). -/

/-- Modelled from the spec: a URL path segment (§4.5: "Each segment may
carry a name, a partial or full claim id, a sequence number, or an
amount-order qualifier"). -/
structure URLPart where
  name : Option String
  claim_id : Option String
  sequence : Option Int
  amount_order : Option Int

/-- Modelled from the spec: `segment.to_dict()` — the set attributes of
the segment. -/
def URLPart.to_dict (p : URLPart) : List (String × PyVal) :=
  (match p.name with | some s => [("name", PyVal.str s)] | _ => []) ++
  (match p.claim_id with | some s => [("claim_id", PyVal.str s)] | _ => []) ++
  (match p.sequence with | some n => [("sequence", PyVal.int n)] | _ => []) ++
  (match p.amount_order with | some n => [("amount_order", PyVal.int n)] | _ => [])

/-- Modelled from the spec: `str(segment)`, used only as a cache-key
component. -/
def URLPart.toStr (p : URLPart) : String :=
  (p.name.getD "") ++
  (match p.claim_id with | some s => "#" ++ s | _ => "") ++
  (match p.sequence with | some n => ":" ++ toString n | _ => "") ++
  (match p.amount_order with | some n => "$" ++ toString n | _ => "")

/-- Modelled from the spec: a parsed URL (§4.5: "zero or one channel
segment, zero or one stream segment"). -/
structure ParsedURL where
  channel : Option URLPart
  stream : Option URLPart

def ParsedURL.has_channel (u : ParsedURL) : Bool := u.channel.isSome

def ParsedURL.has_stream (u : ParsedURL) : Bool := u.stream.isSome

/-- Modelled from the spec: a URL references a channel and/or a stream
(§1), so a successfully parsed URL carries at least one segment. -/
def ParsedURL.wellFormed (u : ParsedURL) : Prop :=
  u.channel.isSome ∨ u.stream.isSome

/-- Modelled from the spec: `str(url)`, used in error messages. -/
def ParsedURL.toStr (u : ParsedURL) : String :=
  "lbry://" ++
  (match u.channel with | some c => "@" ++ c.toStr | _ => "") ++
  (match u.channel, u.stream with | some _, some _ => "/" | _, _ => "") ++
  (match u.stream with | some s => s.toStr | _ => "")

def channelNotFoundMsg (url : ParsedURL) : String :=
  "Could not find channel in \"" ++ url.toStr ++ "\"."

def claimNotFoundMsg (raw : String) : String :=
  "Could not find claim at \"" ++ raw ++ "\"."

/-- The engine state and awaited collaborators of the resolver: the two
LRU caches (as maps), `self.search` (the callers use only the matches)
and `self.get_many`. -/
structure ResolveCtx where
  channel_cache : List (String × PyVal)
  search_cache : List (String × PyVal)
  searchO : List (String × PyVal) → Option (List PyVal)
  get_many : String → Option (List PyVal)

/-- `set(query) == {'name'}`. -/
def onlyNameKey (query : List (String × PyVal)) : Bool :=
  !query.isEmpty && query.all (fun kv => kv.1 == "name")

/-- Lines 220-224: the channel-segment query with the
`is_controlling` / `order_by` amendment. -/
def channelQuery (ch : URLPart) : List (String × PyVal) :=
  let query := ch.to_dict
  if onlyNameKey query then aset query "is_controlling" (PyVal.bool true)
  else aset query "order_by" (PyVal.list [PyVal.str "^creation_height"])

/-- Line 225: `len(query.get('claim_id', ''))` (claim ids in a segment
dict are strings). -/
def cidLenOf (query : List (String × PyVal)) : Nat :=
  match alookup query "claim_id" with
  | some (PyVal.str s) => s.data.length
  | _ => 0

/-- `SearchIndex.resolve_channel_id` (lines 214-234); returns the result
together with the updated channel cache. -/
def resolve_channel_id (ctx : ResolveCtx) (url : ParsedURL) :
    Option (Res × List (String × PyVal)) :=
  match url.channel with
  | Option.none => some (Res.py PyVal.none, ctx.channel_cache)
  | some ch =>
    let key := "cid:" ++ ch.toStr
    match alookup ctx.channel_cache key with
    | some v => some (Res.py v, ctx.channel_cache)
    | Option.none =>
      if cidLenOf (channelQuery ch) ≠ 40 then
        match ctx.searchO (aset (channelQuery ch) "limit" (PyVal.int 1)) with
        | Option.none => Option.none
        | some [] => some (Res.lookupErr (channelNotFoundMsg url), ctx.channel_cache)
        | some (m :: _) =>
          match pyGetItem m "claim_id" with
          | Option.none => Option.none
          | some cid => some (Res.py cid, aset ctx.channel_cache key cid)
      else
        match alookup (channelQuery ch) "claim_id" with
        | some cid => some (Res.py cid, aset ctx.channel_cache key cid)
        | Option.none => Option.none

/-- Lines 250-266 of `resolve_stream`: the query mutations and the
`if not stream` search, shared by both entry paths. -/
def resolveStreamTail (ctx : ResolveCtx) (stPart : URLPart)
    (channel_id : Option String) (query : List (String × PyVal))
    (stream : Option PyVal) :
    Option (Option PyVal × List (String × PyVal)) :=
  let query := match channel_id with
    | some cid =>
      let q := if onlyNameKey query then
          -- temporarily emulate is_controlling for claims in channel
          aset query "order_by"
            (PyVal.list [PyVal.str "effective_amount", PyVal.str "^height"])
        else aset query "order_by" (PyVal.list [PyVal.str "^channel_join"])
      aset (aset q "channel_id" (PyVal.str cid)) "signature_valid" (PyVal.bool true)
    | Option.none =>
      if onlyNameKey query then aset query "is_controlling" (PyVal.bool true)
      else query
  let notStream := match stream with
    | some v => !truthy v
    | Option.none => true
  if notStream then
    match ctx.searchO (aset query "limit" (PyVal.int 1)) with
    | Option.none => Option.none
    | some [] => some (stream, ctx.search_cache)
    | some (m :: _) =>
      let key := (channel_id.getD "") ++ stPart.toStr
      some (some m, aset ctx.search_cache key m)
  else some (stream, ctx.search_cache)

/-- `SearchIndex.resolve_stream` (lines 236-266); returns the stream (or
`None`) together with the updated search cache. -/
def resolve_stream (ctx : ResolveCtx) (url : ParsedURL)
    (channel_id : Option String) :
    Option (Option PyVal × List (String × PyVal)) :=
  match url.stream with
  | Option.none => some (Option.none, ctx.search_cache)
  | some stPart =>
    if url.has_channel && channel_id.isNone then
      some (Option.none, ctx.search_cache)
    else
      let query := stPart.to_dict
      match alookup query "claim_id" with
      | some (PyVal.str s) =>
        if s.data.length = 40 then
          match ctx.get_many s with
          | Option.none => Option.none
          | some res => resolveStreamTail ctx stPart channel_id query res.head?
        else
          let key := (channel_id.getD "") ++ stPart.toStr
          match alookup ctx.search_cache key with
          | some v => some (some v, ctx.search_cache)
          | Option.none => resolveStreamTail ctx stPart channel_id query Option.none
      | _ =>
        let key := (channel_id.getD "") ++ stPart.toStr
        match alookup ctx.search_cache key with
        | some v => some (some v, ctx.search_cache)
        | Option.none => resolveStreamTail ctx stPart channel_id query Option.none

/-- `SearchIndex.resolve_url` (lines 191-212).  `parseO` stands for the
external `URL.parse`; an `Except.error` is the caught `ValueError`. -/
def resolve_url (parseO : String → Except String ParsedURL)
    (ctx : ResolveCtx) (raw : String) : Option Res :=
  match parseO raw with
  | Except.error e => some (Res.valueErr e)
  | Except.ok url =>
    match resolve_channel_id ctx url with
    | Option.none => Option.none
    | some (cidRes, ccache) =>
      match cidRes with
      | Res.lookupErr m => some (Res.lookupErr m)
      | _ =>
        let cidStr : Option String := match cidRes with
          | Res.py (PyVal.str s) => some s
          | _ => Option.none
        let ctx := { ctx with channel_cache := ccache }
        match resolve_stream ctx url cidStr with
        | Option.none => Option.none
        | some (streamOpt, _) =>
          let stream : Res := match streamOpt with
            | some v =>
              if truthy v then Res.py v else Res.lookupErr (claimNotFoundMsg raw)
            | Option.none => Res.lookupErr (claimNotFoundMsg raw)
          if url.has_stream then some stream
          else
            match cidStr with
            | some s =>
              match ctx.get_many s with
              | Option.none => Option.none
              | some [] => some (Res.lookupErr (channelNotFoundMsg url))
              | some (r :: _) => some (Res.py r)
            | Option.none => some cidRes

/-! ### Statement-support definitions -/

/-- The query object produced when only must/must_not clauses result (no
pagination, no sort, no collapse). -/
def bareQuery (must mustNot : List PyVal) : PyVal :=
  PyVal.dict [
    ("_source", PyVal.dict [("excludes",
      PyVal.list [PyVal.str "description", PyVal.str "title"])]),
    ("query", PyVal.dict [("bool", PyVal.dict
      [("must", PyVal.list must), ("must_not", PyVal.list mustNot)])]),
    ("sort", PyVal.list [])]

/-- The entries of a compiled query's `query.bool` sub-dict. -/
def boolEntries (q : PyVal) : List (String × PyVal) :=
  match pyGetItem q "query" with
  | some (PyVal.dict qd) =>
    match alookup qd "bool" with
    | some (PyVal.dict b) => b
    | _ => []
  | _ => []

/-- The `must` clause list of a compiled query. -/
def mustListOf (q : PyVal) : List PyVal :=
  match alookup (boolEntries q) "must" with
  | some (PyVal.list l) => l
  | _ => []

/-- The `must_not` clause list of a compiled query. -/
def mustNotListOf (q : PyVal) : List PyVal :=
  match alookup (boolEntries q) "must_not" with
  | some (PyVal.list l) => l
  | _ => []

/-- The `should` group of a compiled query, when present. -/
def shouldOf (q : PyVal) : Option PyVal := alookup (boolEntries q) "should"

/-- The `minimum_should_match` entry of a compiled query, when present. -/
def msmOf (q : PyVal) : Option PyVal :=
  alookup (boolEntries q) "minimum_should_match"

/-- Whether any must clause is a `prefix` clause. -/
def hasPrefixClause (q : PyVal) : Bool :=
  (mustListOf q).any (fun c => match c with
    | PyVal.dict entries => acontains entries "prefix"
    | _ => false)

/-- The full update-by-query body `make_query ct bd channels` produces. -/
def mkFilterBody (ct : Nat) (bd : List (List Nat × List Nat))
    (channels : Bool) : PyVal :=
  PyVal.dict [
    ("_source", PyVal.dict [("excludes",
      PyVal.list [PyVal.str "description", PyVal.str "title"])]),
    ("query", PyVal.dict [("bool", PyVal.dict
      [("must", PyVal.list [
          termsClause (if channels then "channel_id.keyword" else "claim_id.keyword")
            (PyVal.list (censorKeys bd)),
          rangeClause "censor_type" "lt" (PyVal.str (toString ct))]),
       ("must_not", PyVal.list [])])]),
    ("sort", PyVal.list []),
    ("script", censorScript ct (if channels then "channel_id" else "claim_id") bd)]

/-- A concrete binary claim document (channel-signed stream). -/
def exampleBinaryDoc : BinaryDoc := {
  claim_hash := PyVal.bytes [1, 2]
  reposted_claim_hash := PyVal.none
  channel_hash := PyVal.bytes [3, 4]
  censoring_channel_hash := PyVal.none
  txo_hash := PyVal.bytes (List.replicate 32 7 ++ [5, 1, 0, 0])
  is_controlling := PyVal.bool true
  signature := PyVal.bytes [171]
  signature_digest := PyVal.bytes [18, 52]
  public_key_bytes := PyVal.none
  public_key_hash := PyVal.bytes [9]
  signature_valid := PyVal.bool true
  claim_type := PyVal.int 1
  stream_type := PyVal.int 2 }

/-! ## Theorems -/

/-! ### Association-list lemmas -/

theorem alookup_replace_self (d : List (String × PyVal)) (k : String) (v : PyVal) :
    alookup (d.map (fun kv => if kv.1 = k then (k, v) else kv)) k =
      (alookup d k).map (fun _ => v) := by
  induction d with
  | nil => rfl
  | cons kv rest ih =>
    by_cases h : kv.1 = k
    · simp [alookup, h]
    · simp [alookup, h, ih]

theorem alookup_replace_ne (d : List (String × PyVal)) (k : String) (v : PyVal)
    (k' : String) (h : k' ≠ k) :
    alookup (d.map (fun kv => if kv.1 = k then (k, v) else kv)) k' =
      alookup d k' := by
  induction d with
  | nil => rfl
  | cons kv rest ih =>
    by_cases h1 : kv.1 = k
    · simp [alookup, h1, Ne.symm h, ih]
    · by_cases h2 : kv.1 = k' <;> simp [alookup, h1, h2, h, Ne.symm h, ih]

theorem alookup_cons (kv : String × PyVal) (rest : List (String × PyVal))
    (k : String) :
    alookup (kv :: rest) k = if kv.1 = k then some kv.2 else alookup rest k :=
  rfl

theorem alookup_append_isSome (a b : List (String × PyVal)) (k : String)
    (h : (alookup a k).isSome) : alookup (a ++ b) k = alookup a k := by
  induction a with
  | nil => simp [alookup] at h
  | cons kv rest ih =>
    rw [List.cons_append, alookup_cons, alookup_cons]
    by_cases h1 : kv.1 = k
    · rw [if_pos h1, if_pos h1]
    · rw [if_neg h1, if_neg h1]
      rw [alookup_cons, if_neg h1] at h
      exact ih h

theorem alookup_append_none (a b : List (String × PyVal)) (k : String)
    (h : alookup a k = Option.none) : alookup (a ++ b) k = alookup b k := by
  induction a with
  | nil => rfl
  | cons kv rest ih =>
    rw [alookup_cons] at h
    by_cases h1 : kv.1 = k
    · rw [if_pos h1] at h; exact absurd h (by simp)
    · rw [if_neg h1] at h
      rw [List.cons_append, alookup_cons, if_neg h1]
      exact ih h

theorem alookup_aset_self (d : List (String × PyVal)) (k : String) (v : PyVal) :
    alookup (aset d k v) k = some v := by
  unfold aset
  by_cases hc : acontains d k
  · rw [if_pos hc, alookup_replace_self]
    obtain ⟨w, hw⟩ := Option.isSome_iff_exists.mp hc
    rw [hw]; rfl
  · rw [if_neg hc]
    have hn : alookup d k = Option.none := by
      unfold acontains at hc
      cases h : alookup d k
      · rfl
      · rw [h] at hc; simp at hc
    rw [alookup_append_none _ _ _ hn]
    simp [alookup]

theorem alookup_aset_ne (d : List (String × PyVal)) (k : String) (v : PyVal)
    (k' : String) (h : k' ≠ k) :
    alookup (aset d k v) k' = alookup d k' := by
  unfold aset
  by_cases hc : acontains d k
  · rw [if_pos hc, alookup_replace_ne _ _ _ _ h]
  · rw [if_neg hc]
    cases h2 : alookup d k' with
    | some w =>
      rw [alookup_append_isSome _ _ _ (by rw [h2]; rfl), h2]
    | none =>
      rw [alookup_append_none _ _ _ h2]
      simp [alookup, Ne.symm h]

theorem alookup_apop_ne (d : List (String × PyVal)) (k k' : String)
    (h : k' ≠ k) : alookup (apop d k) k' = alookup d k' := by
  induction d with
  | nil => rfl
  | cons kv rest ih =>
    unfold apop at ih ⊢
    simp only [decide_not] at ih ⊢
    rw [List.filter_cons]
    by_cases h1 : kv.1 = k
    · have h2 : kv.1 ≠ k' := by rw [h1]; exact Ne.symm h
      simp [h1, alookup_cons, h2, h, Ne.symm h, ih]
    · by_cases h2 : kv.1 = k' <;>
        simp [h1, alookup_cons, h2, h, Ne.symm h, ih]

theorem acontains_of_alookup (d : List (String × PyVal)) (k : String)
    (v : PyVal) (h : alookup d k = some v) : acontains d k = true := by
  unfold acontains; rw [h]; rfl

/-! ### `expand_query` pipeline structure -/

theorem expand_query_bind (kwargs : List (String × PyVal)) :
    expand_query kwargs = (preamble kwargs).bind (fun kw =>
      (runEntries ⟨[], [], Option.none⟩ kw).bind (fun st => assemble kw st)) :=
  rfl

theorem runEntries_cons (st : QState) (kv : String × PyVal)
    (rest : List (String × PyVal)) :
    runEntries st (kv :: rest) =
      (processEntry st kv).bind (fun st' => runEntries st' rest) := rfl

theorem runEntries_nil (st : QState) : runEntries st [] = some st := rfl

theorem expand_query_some (kwargs : List (String × PyVal)) (q : PyVal)
    (h : expand_query kwargs = some q) :
    ∃ kw st, preamble kwargs = some kw ∧
      runEntries ⟨[], [], Option.none⟩ kw = some st ∧ assemble kw st = some q := by
  rw [expand_query_bind] at h
  cases hp : preamble kwargs with
  | none => rw [hp] at h; simp at h
  | some kw =>
    rw [hp] at h
    simp only [Option.some_bind] at h
    cases hr : runEntries ⟨[], [], Option.none⟩ kw with
    | none => rw [hr] at h; simp at h
    | some st =>
      rw [hr] at h
      simp only [Option.some_bind] at h
      exact ⟨kw, st, rfl, hr, h⟩

/-! ### Preamble lemmas -/

theorem preamble_stages (kwargs kw : List (String × PyVal))
    (h : preamble kwargs = some kw) :
    ∃ k1 k2, preamble1 kwargs = some k1 ∧ preamble2 k1 = some k2 ∧
      kw = preamble3 k2 := by
  unfold preamble at h
  cases h1 : preamble1 kwargs with
  | none => rw [h1] at h; simp at h
  | some k1 =>
    rw [h1] at h
    simp only [Option.some_bind] at h
    cases h2 : preamble2 k1 with
    | none => rw [h2] at h; simp at h
    | some k2 =>
      rw [h2] at h
      simp only [Option.map_some'] at h
      injection h with h
      exact ⟨k1, k2, rfl, h2, h.symm⟩

theorem preamble1_lookup (kwargs k1 : List (String × PyVal)) (k : String)
    (h : preamble1 kwargs = some k1)
    (h1 : k ≠ "limit") (h2 : k ≠ "order_by") (h3 : k ≠ "offset") :
    alookup k1 k = alookup kwargs k := by
  unfold preamble1 at h
  by_cases hc : acontains kwargs "amount_order"
  · rw [if_pos hc] at h
    cases hi : pyToInt (agetD kwargs "amount_order") with
    | none => rw [hi] at h; simp at h
    | some n =>
      rw [hi] at h
      simp only [Option.map_some', Option.some.injEq] at h
      rw [← h, alookup_aset_ne _ _ _ _ h3, alookup_aset_ne _ _ _ _ h2,
        alookup_aset_ne _ _ _ _ h1]
  · rw [if_neg hc] at h
    simp only [Option.some.injEq] at h
    rw [← h]

theorem preamble2_lookup (k1 k2 : List (String × PyVal)) (k : String)
    (h : preamble2 k1 = some k2) (hn : k ≠ "name") :
    alookup k2 k = alookup k1 k := by
  unfold preamble2 at h
  by_cases hc : acontains k1 "name"
  · rw [if_pos hc] at h
    cases hi : asStrPy (agetD k1 "name") with
    | none => rw [hi] at h; simp at h
    | some s =>
      rw [hi] at h
      simp only [Option.map_some', Option.some.injEq] at h
      rw [← h, alookup_aset_ne _ _ _ _ hn, alookup_apop_ne _ _ _ hn]
  · rw [if_neg hc] at h
    simp only [Option.some.injEq] at h
    rw [← h]

theorem preamble3_lookup (kw : List (String × PyVal)) (k : String)
    (hic : k ≠ "is_controlling") :
    alookup (preamble3 kw) k = alookup kw k := by
  unfold preamble3
  split
  · exact alookup_apop_ne _ _ _ hic
  · rfl

theorem preamble_lookup (kwargs kw : List (String × PyVal)) (k : String)
    (hl : k ≠ "limit") (ho : k ≠ "order_by") (hof : k ≠ "offset")
    (hn : k ≠ "name") (hic : k ≠ "is_controlling")
    (h : preamble kwargs = some kw) :
    alookup kw k = alookup kwargs k := by
  obtain ⟨k1, k2, h1, h2, h3⟩ := preamble_stages kwargs kw h
  rw [h3, preamble3_lookup _ _ hic, preamble2_lookup _ _ _ h2 hn,
    preamble1_lookup _ _ _ h1 hl ho hof]

theorem preamble_amount_order (kwargs kw : List (String × PyVal)) (n : Int)
    (hao : alookup kwargs "amount_order" = some (PyVal.int n))
    (h : preamble kwargs = some kw) :
    alookup kw "limit" = some (PyVal.int 1) ∧
    alookup kw "order_by" = some (PyVal.str "effective_amount") ∧
    alookup kw "offset" = some (PyVal.int (n - 1)) := by
  obtain ⟨k1, k2, h1, h2, h3⟩ := preamble_stages kwargs kw h
  have hk1 : alookup k1 "limit" = some (PyVal.int 1) ∧
      alookup k1 "order_by" = some (PyVal.str "effective_amount") ∧
      alookup k1 "offset" = some (PyVal.int (n - 1)) := by
    unfold preamble1 at h1
    rw [if_pos (acontains_of_alookup _ _ _ hao)] at h1
    have hi : pyToInt (agetD kwargs "amount_order") = some n := by
      unfold agetD; rw [hao]; rfl
    rw [hi] at h1
    simp only [Option.map_some', Option.some.injEq] at h1
    subst h1
    refine ⟨?_, ?_, ?_⟩
    · rw [alookup_aset_ne _ _ _ _ (by decide), alookup_aset_ne _ _ _ _ (by decide),
        alookup_aset_self]
    · rw [alookup_aset_ne _ _ _ _ (by decide), alookup_aset_self]
    · rw [alookup_aset_self]
  have t2l := preamble2_lookup k1 k2 "limit" h2 (by decide)
  have t2o := preamble2_lookup k1 k2 "order_by" h2 (by decide)
  have t2f := preamble2_lookup k1 k2 "offset" h2 (by decide)
  refine ⟨?_, ?_, ?_⟩
  · rw [h3, preamble3_lookup _ _ (by decide), t2l, hk1.1]
  · rw [h3, preamble3_lookup _ _ (by decide), t2o, hk1.2.1]
  · rw [h3, preamble3_lookup _ _ (by decide), t2f, hk1.2.2]

/-! ### `buildBool` and `assemble` lemmas -/

theorem buildBool_must (kw : List (String × PyVal)) (st : QState) :
    alookup (buildBool kw st) "must" =
      some (PyVal.list (st.must ++ sigMustOf kw ++ textMustOf kw)) := by
  unfold buildBool; cases shouldPartOf kw <;> rfl

theorem buildBool_should (kw : List (String × PyVal)) (st : QState) :
    alookup (buildBool kw st) "should" = (shouldPartOf kw).map PyVal.list := by
  unfold buildBool; cases shouldPartOf kw <;> rfl

theorem buildBool_msm (kw : List (String × PyVal)) (st : QState) :
    alookup (buildBool kw st) "minimum_should_match" =
      (shouldPartOf kw).map (fun _ => PyVal.int 1) := by
  unfold buildBool; cases shouldPartOf kw <;> rfl

theorem assemble_parts (kw : List (String × PyVal)) (st : QState) (q : PyVal)
    (h : assemble kw st = some q) :
    (∃ sl, sortOf kw = some sl ∧ pyGetItem q "sort" = some (PyVal.list sl)) ∧
    pyGetItem q "query" =
      some (PyVal.dict [("bool", PyVal.dict (buildBool kw st))]) ∧
    (acontains kw "limit" = true → pyGetItem q "size" = some (agetD kw "limit")) ∧
    (acontains kw "offset" = true → pyGetItem q "from" = some (agetD kw "offset")) := by
  unfold assemble at h
  cases hs : sortOf kw with
  | none => rw [hs] at h; simp at h
  | some sl =>
    rw [hs] at h
    simp only [Option.some_bind] at h
    by_cases hl : acontains kw "limit" <;> by_cases ho : acontains kw "offset" <;>
      cases hc : st.collapse <;>
      simp only [hl, ho, hc, if_true, if_false, Bool.false_eq_true,
        Option.some.injEq] at h <;>
      subst h <;>
      refine ⟨⟨sl, rfl, ?_⟩, ?_, fun hh => ?_, fun hh => ?_⟩ <;>
      simp_all [pyGetItem, alookup]

/-- C4: in the compiled query, a truthy `has_channel_signature` adds a
must clause `exists signature_digest`, plus a must term on
`signature_valid` when that option is also supplied, with no should group
emitted; `signature_valid` supplied without a truthy
`has_channel_signature` emits a should group with `minimum_should_match`
1 holding exactly the two alternatives `not exists signature_digest` and
`term signature_valid == requested boolean`. -/
theorem expand_query_signature_clauses (kwargs : List (String × PyVal))
    (q : PyVal) (h : expand_query kwargs = some q) :
    (truthy (agetD kwargs "has_channel_signature") = true →
      existsSignatureDigest ∈ mustListOf q ∧
      (acontains kwargs "signature_valid" = true →
        sigValidTerm (truthy (agetD kwargs "signature_valid")) ∈ mustListOf q) ∧
      shouldOf q = Option.none ∧ msmOf q = Option.none) ∧
    (truthy (agetD kwargs "has_channel_signature") = false →
      acontains kwargs "signature_valid" = true →
      shouldOf q = some (PyVal.list [notExistsSignatureDigest,
        sigValidTerm (truthy (agetD kwargs "signature_valid"))]) ∧
      msmOf q = some (PyVal.int 1)) := by
  obtain ⟨kw, st, hp, hr, ha⟩ := expand_query_some kwargs q h
  obtain ⟨⟨sl, hsl, hsort⟩, hq, hsz, hfrom⟩ := assemble_parts kw st q ha
  have hpr1 : alookup kw "has_channel_signature" =
      alookup kwargs "has_channel_signature" :=
    preamble_lookup _ _ _ (by decide) (by decide) (by decide) (by decide)
      (by decide) hp
  have hpr2 : alookup kw "signature_valid" = alookup kwargs "signature_valid" :=
    preamble_lookup _ _ _ (by decide) (by decide) (by decide) (by decide)
      (by decide) hp
  have hg1 : agetD kw "has_channel_signature" =
      agetD kwargs "has_channel_signature" := by unfold agetD; rw [hpr1]
  have hg2 : agetD kw "signature_valid" = agetD kwargs "signature_valid" := by
    unfold agetD; rw [hpr2]
  have hc2 : acontains kw "signature_valid" =
      acontains kwargs "signature_valid" := by unfold acontains; rw [hpr2]
  have hbe : boolEntries q = buildBool kw st := by
    unfold boolEntries; rw [hq]; simp [alookup]
  have hmust : mustListOf q = st.must ++ sigMustOf kw ++ textMustOf kw := by
    unfold mustListOf; rw [hbe, buildBool_must]
  constructor
  · intro hh
    have hsig : sigMustOf kw = [existsSignatureDigest] ++
        (if acontains kwargs "signature_valid" then
          [sigValidTerm (truthy (agetD kwargs "signature_valid"))] else []) := by
      unfold sigMustOf; rw [hg1, hc2, hg2, if_pos hh]
    have hshould : shouldPartOf kw = Option.none := by
      unfold shouldPartOf; rw [hg1, if_pos hh]
    refine ⟨?_, ?_, ?_, ?_⟩
    · rw [hmust, hsig]; simp [List.mem_append]
    · intro hsv; rw [hmust, hsig]; simp [hsv, List.mem_append]
    · unfold shouldOf; rw [hbe, buildBool_should, hshould]; rfl
    · unfold msmOf; rw [hbe, buildBool_msm, hshould]; rfl
  · intro hh hsv
    have hshould : shouldPartOf kw = some [notExistsSignatureDigest,
        sigValidTerm (truthy (agetD kwargs "signature_valid"))] := by
      unfold shouldPartOf
      rw [hg1, hh, hc2, hg2, if_neg (by simp), if_pos hsv]
    constructor
    · unfold shouldOf; rw [hbe, buildBool_should, hshould]; rfl
    · unfold msmOf; rw [hbe, buildBool_msm, hshould]; rfl

/-- Witness for `expand_query_signature_clauses`, at
`has_channel_signature=True, signature_valid=True` and at
`signature_valid=False` alone. -/
theorem expand_query_signature_clauses_witness :
    existsSignatureDigest ∈
      mustListOf (bareQuery [existsSignatureDigest, sigValidTerm true] []) ∧
    sigValidTerm true ∈
      mustListOf (bareQuery [existsSignatureDigest, sigValidTerm true] []) ∧
    shouldOf (bareQuery [existsSignatureDigest, sigValidTerm true] []) =
      Option.none ∧
    shouldOf (PyVal.dict [
      ("_source", PyVal.dict [("excludes",
        PyVal.list [PyVal.str "description", PyVal.str "title"])]),
      ("query", PyVal.dict [("bool", PyVal.dict
        [("must", PyVal.list []), ("must_not", PyVal.list []),
         ("should", PyVal.list [notExistsSignatureDigest, sigValidTerm false]),
         ("minimum_should_match", PyVal.int 1)])]),
      ("sort", PyVal.list [])]) =
      some (PyVal.list [notExistsSignatureDigest, sigValidTerm false]) ∧
    msmOf (PyVal.dict [
      ("_source", PyVal.dict [("excludes",
        PyVal.list [PyVal.str "description", PyVal.str "title"])]),
      ("query", PyVal.dict [("bool", PyVal.dict
        [("must", PyVal.list []), ("must_not", PyVal.list []),
         ("should", PyVal.list [notExistsSignatureDigest, sigValidTerm false]),
         ("minimum_should_match", PyVal.int 1)])]),
      ("sort", PyVal.list [])]) = some (PyVal.int 1) := by
  have hA := (expand_query_signature_clauses
    [("has_channel_signature", PyVal.bool true),
     ("signature_valid", PyVal.bool true)]
    (bareQuery [existsSignatureDigest, sigValidTerm true] []) rfl).1 rfl
  have hB := (expand_query_signature_clauses
    [("signature_valid", PyVal.bool false)]
    (PyVal.dict [
      ("_source", PyVal.dict [("excludes",
        PyVal.list [PyVal.str "description", PyVal.str "title"])]),
      ("query", PyVal.dict [("bool", PyVal.dict
        [("must", PyVal.list []), ("must_not", PyVal.list []),
         ("should", PyVal.list [notExistsSignatureDigest, sigValidTerm false]),
         ("minimum_should_match", PyVal.int 1)])]),
      ("sort", PyVal.list [])]) rfl).2 rfl rfl
  exact ⟨hA.1, hA.2.1 rfl, hA.2.2.1, hB.1, hB.2⟩

/-- C5: `amount_order=n` (n a positive integer) compiles to `size=1`, a
descending sort on `effective_amount`, and `from=n-1`, whatever else the
query contains. -/
theorem expand_query_amount_order (kwargs : List (String × PyVal)) (q : PyVal)
    (n : Int) (hao : alookup kwargs "amount_order" = some (PyVal.int n))
    (_hpos : 1 ≤ n) (h : expand_query kwargs = some q) :
    pyGetItem q "size" = some (PyVal.int 1) ∧
    pyGetItem q "from" = some (PyVal.int (n - 1)) ∧
    pyGetItem q "sort" =
      some (PyVal.list [PyVal.dict [("effective_amount", PyVal.str "desc")]]) := by
  obtain ⟨kw, st, hp, hr, ha⟩ := expand_query_some kwargs q h
  obtain ⟨⟨sl, hsl, hsort⟩, hq, hsz, hfrom⟩ := assemble_parts kw st q ha
  obtain ⟨hlim, hob, hoff⟩ := preamble_amount_order kwargs kw n hao hp
  have hsls : sortOf kw =
      some [PyVal.dict [("effective_amount", PyVal.str "desc")]] := by
    unfold sortOf
    rw [if_pos (acontains_of_alookup _ _ _ hob)]
    have : agetD kw "order_by" = PyVal.str "effective_amount" := by
      unfold agetD; rw [hob]; rfl
    rw [this]
    rfl
  refine ⟨?_, ?_, ?_⟩
  · have := hsz (acontains_of_alookup _ _ _ hlim)
    rw [this]
    unfold agetD; rw [hlim]; rfl
  · have := hfrom (acontains_of_alookup _ _ _ hoff)
    rw [this]
    unfold agetD; rw [hoff]; rfl
  · rw [hsl] at hsls
    injection hsls with hsls
    rw [hsort, hsls]

/-- Witness for `expand_query_amount_order` at `amount_order=3`. -/
theorem expand_query_amount_order_witness :
    pyGetItem (PyVal.dict [
      ("_source", PyVal.dict [("excludes",
        PyVal.list [PyVal.str "description", PyVal.str "title"])]),
      ("query", PyVal.dict [("bool", PyVal.dict
        [("must", PyVal.list []), ("must_not", PyVal.list [])])]),
      ("sort", PyVal.list [PyVal.dict [("effective_amount", PyVal.str "desc")]]),
      ("size", PyVal.int 1), ("from", PyVal.int 2)]) "size" =
        some (PyVal.int 1) ∧
    pyGetItem (PyVal.dict [
      ("_source", PyVal.dict [("excludes",
        PyVal.list [PyVal.str "description", PyVal.str "title"])]),
      ("query", PyVal.dict [("bool", PyVal.dict
        [("must", PyVal.list []), ("must_not", PyVal.list [])])]),
      ("sort", PyVal.list [PyVal.dict [("effective_amount", PyVal.str "desc")]]),
      ("size", PyVal.int 1), ("from", PyVal.int 2)]) "from" =
        some (PyVal.int (3 - 1)) ∧
    pyGetItem (PyVal.dict [
      ("_source", PyVal.dict [("excludes",
        PyVal.list [PyVal.str "description", PyVal.str "title"])]),
      ("query", PyVal.dict [("bool", PyVal.dict
        [("must", PyVal.list []), ("must_not", PyVal.list [])])]),
      ("sort", PyVal.list [PyVal.dict [("effective_amount", PyVal.str "desc")]]),
      ("size", PyVal.int 1), ("from", PyVal.int 2)]) "sort" =
        some (PyVal.list [PyVal.dict [("effective_amount", PyVal.str "desc")]]) :=
  expand_query_amount_order [("amount_order", PyVal.int 3)] _ 3 rfl
    (by decide) rfl

/-- C2 (amended): a scalar `claim_id` of 20 or more characters (40
included) compiles to an exact term clause on `claim_id.keyword`; one of
fewer than 20 characters (the empty string included) compiles to a
`prefix` clause on `claim_id` — in particular a 20-39 character id gets a
term clause, not a prefix clause, and an empty string is not omitted. -/
theorem expand_query_claim_id_clauses (s : String) :
    (20 ≤ s.data.length →
      expand_query [("claim_id", PyVal.str s)] =
        some (bareQuery [termClause "claim_id.keyword" (PyVal.str s)] [])) ∧
    (s.data.length < 20 →
      expand_query [("claim_id", PyVal.str s)] =
        some (bareQuery [prefixClause (PyVal.str s)] [])) := by
  have hpre : preamble [("claim_id", PyVal.str s)] =
      some [("claim_id", PyVal.str s)] := rfl
  have hpe : processEntry ⟨[], [], Option.none⟩ ("claim_id", PyVal.str s) =
      (if decide (s.data.length < 20) = true then
        some (QState.mk [prefixClause (PyVal.str s)] [] Option.none)
       else some (QState.mk [termClause "claim_id.keyword" (PyVal.str s)] []
         Option.none)) := rfl
  constructor
  · intro h
    have hd : (decide (s.data.length < 20)) = false :=
      decide_eq_false (by omega)
    simp only [expand_query_bind, hpre, Option.some_bind, runEntries_cons, hpe,
      hd, Bool.false_eq_true, if_false, runEntries_nil]
    rfl
  · intro h
    have hd : (decide (s.data.length < 20)) = true := decide_eq_true h
    simp only [expand_query_bind, hpre, Option.some_bind, runEntries_cons, hpe,
      hd, if_true, runEntries_nil]
    rfl

/-- Counterexample to C2 as stated: a 20-character `claim_id` produces an
exact term clause and no prefix clause (the claim says 20-39 characters
produce a prefix clause), and the empty string produces a prefix clause
(the claim says it is omitted). -/
theorem expand_query_claim_id_20_39_cx :
    expand_query [("claim_id", PyVal.str "aaaaaaaaaaaaaaaaaaaa")] =
      some (bareQuery
        [termClause "claim_id.keyword" (PyVal.str "aaaaaaaaaaaaaaaaaaaa")] []) ∧
    hasPrefixClause (bareQuery
      [termClause "claim_id.keyword" (PyVal.str "aaaaaaaaaaaaaaaaaaaa")] []) =
      false ∧
    expand_query [("claim_id", PyVal.str "")] =
      some (bareQuery [prefixClause (PyVal.str "")] []) :=
  ⟨rfl, rfl, rfl⟩

/-- Witness for `expand_query_claim_id_clauses`, at a 40-character id and
a 3-character partial id. -/
theorem expand_query_claim_id_clauses_witness :
    expand_query [("claim_id",
        PyVal.str "aaaaaaaaaaaaaaaaaaaaaaaaaaaaaaaaaaaaaaaa")] =
      some (bareQuery [termClause "claim_id.keyword"
        (PyVal.str "aaaaaaaaaaaaaaaaaaaaaaaaaaaaaaaaaaaaaaaa")] []) ∧
    expand_query [("claim_id", PyVal.str "abc")] =
      some (bareQuery [prefixClause (PyVal.str "abc")] []) :=
  ⟨(expand_query_claim_id_clauses _).1 (by decide),
   (expand_query_claim_id_clauses _).2 (by decide)⟩

/-! ### `not_channel_ids` (C10) -/

theorem notchannel_filter_map (cs : List String) :
    (cs.map PyVal.str).filter truthy =
      (cs.filter (fun c => c ≠ "")).map PyVal.str := by
  induction cs with
  | nil => rfl
  | cons c rest ih =>
    simp only [List.map_cons, List.filter_cons]
    by_cases h : c = ""
    · subst h; simp [truthy, ih]
    · simp [truthy, h, ih]

theorem flatMap_map_str (l : List String) (f : PyVal → List PyVal) :
    (l.map PyVal.str).flatMap f = l.flatMap (fun c => f (PyVal.str c)) := by
  induction l with
  | nil => rfl
  | cons a rest ih => simp [List.flatMap_cons, ih]

/-- C10 (amended): every non-empty (truthy) element `c` of
`not_channel_ids` contributes the two must_not term clauses (on
`channel_id.keyword` and on `_id`); falsy elements (the empty string) are
filtered out before clause generation. -/
theorem expand_query_not_channel_ids_clauses (cs : List String) (c : String)
    (hc : c ∈ cs) (hne : c ≠ "") :
    ∃ q, expand_query [("not_channel_ids", PyVal.list (cs.map PyVal.str))] =
        some q ∧
      mustNotListOf q = (cs.filter (fun x => x ≠ "")).flatMap (fun x =>
        [termEqClause "channel_id.keyword" (PyVal.str x),
         termEqClause "_id" (PyVal.str x)]) ∧
      termEqClause "channel_id.keyword" (PyVal.str c) ∈ mustNotListOf q ∧
      termEqClause "_id" (PyVal.str c) ∈ mustNotListOf q := by
  have hpre : preamble [("not_channel_ids", PyVal.list (cs.map PyVal.str))] =
      some [("not_channel_ids", PyVal.list (cs.map PyVal.str))] := rfl
  have hpe : processEntry ⟨[], [], Option.none⟩
      ("not_channel_ids", PyVal.list (cs.map PyVal.str)) =
      (if ((cs.map PyVal.str).filter truthy).isEmpty = true then
        some ⟨[], [], Option.none⟩
       else some ⟨[], ((cs.map PyVal.str).filter truthy).flatMap (fun x =>
         [termEqClause "channel_id.keyword" x, termEqClause "_id" x]),
         Option.none⟩) := rfl
  have hfm := notchannel_filter_map cs
  have hcf : c ∈ cs.filter (fun x => x ≠ "") :=
    List.mem_filter.mpr ⟨hc, by simp [hne]⟩
  have hni : ((cs.map PyVal.str).filter truthy).isEmpty = false := by
    rw [hfm]
    cases hcs : cs.filter (fun x => x ≠ "") with
    | nil => rw [hcs] at hcf; simp at hcf
    | cons a rest => simp
  refine ⟨bareQuery [] ((cs.filter (fun x => x ≠ "")).flatMap (fun x =>
    [termEqClause "channel_id.keyword" (PyVal.str x),
     termEqClause "_id" (PyVal.str x)])), ?_, ?_, ?_, ?_⟩
  · simp only [expand_query_bind, hpre, Option.some_bind, runEntries_cons, hpe,
      hni, Bool.false_eq_true, if_false, runEntries_nil]
    rw [hfm, flatMap_map_str]
    rfl
  · rfl
  · show _ ∈ (cs.filter (fun x => x ≠ "")).flatMap _
    exact List.mem_flatMap.mpr ⟨c, hcf, by simp⟩
  · show _ ∈ (cs.filter (fun x => x ≠ "")).flatMap _
    exact List.mem_flatMap.mpr ⟨c, hcf, by simp⟩

/-- Counterexample to C10 as stated: the empty-string element of
`not_channel_ids` is dropped by `filter(None, ...)`, so the compiled
query contains no must_not clause at all for it. -/
theorem expand_query_not_channel_ids_falsy_cx :
    expand_query [("not_channel_ids", PyVal.list [PyVal.str ""])] =
      some (bareQuery [] []) := rfl

/-- Witness for `expand_query_not_channel_ids_clauses` at the one-element
list `["c1"]`. -/
theorem expand_query_not_channel_ids_clauses_witness :
    termEqClause "channel_id.keyword" (PyVal.str "c1") ∈
      mustNotListOf (bareQuery []
        [termEqClause "channel_id.keyword" (PyVal.str "c1"),
         termEqClause "_id" (PyVal.str "c1")]) ∧
    termEqClause "_id" (PyVal.str "c1") ∈
      mustNotListOf (bareQuery []
        [termEqClause "channel_id.keyword" (PyVal.str "c1"),
         termEqClause "_id" (PyVal.str "c1")]) := by
  obtain ⟨q, hq, hmn, h1, h2⟩ :=
    expand_query_not_channel_ids_clauses ["c1"] "c1" (by simp) (by decide)
  have he : expand_query
      [("not_channel_ids", PyVal.list (List.map PyVal.str ["c1"]))] =
      some (bareQuery []
        [termEqClause "channel_id.keyword" (PyVal.str "c1"),
         termEqClause "_id" (PyVal.str "c1")]) := rfl
  rw [hq] at he
  injection he with he
  rw [← he]
  exact ⟨h1, h2⟩
theorem parseUnsignedDec_head (c : Char) (cs : List Char) (d : Rat)
    (h : parseUnsignedDec (c :: cs) = some d) :
    isDigitChar c = true ∨ c = '.' := by
  by_cases hd : isDigitChar c
  · exact Or.inl hd
  · right
    unfold parseUnsignedDec at h
    rw [List.takeWhile_cons, List.dropWhile_cons] at h
    simp only [hd, Bool.false_eq_true, if_false] at h
    by_cases hc : c = '.'
    · exact hc
    · rw [if_neg hc] at h
      exact absurd h (by simp)

theorem parseDecimal_shape (s : String) (d : Rat)
    (h : parseDecimal s = some d) :
    ∃ c cs, s.data = c :: cs ∧ ((c = '<' || c = '>') = false) := by
  obtain ⟨sd⟩ := s
  cases sd with
  | nil => exact absurd h (by simp [parseDecimal])
  | cons c cs =>
    refine ⟨c, cs, rfl, ?_⟩
    have hform : isDigitChar c = true ∨ c = '.' ∨ c = '+' ∨ c = '-' := by
      by_cases h1 : c = '+'
      · exact Or.inr (Or.inr (Or.inl h1))
      · by_cases h2 : c = '-'
        · exact Or.inr (Or.inr (Or.inr h2))
        · simp only [parseDecimal, if_neg h1, if_neg h2] at h
          rcases parseUnsignedDec_head c cs d h with hd | hdot
          · exact Or.inl hd
          · exact Or.inr (Or.inl hdot)
    by_cases hlt : c = '<'
    · subst hlt
      rcases hform with hd | hdot | hp | hm
      · exact absurd hd (by decide)
      · exact absurd hdot (by decide)
      · exact absurd hp (by decide)
      · exact absurd hm (by decide)
    · by_cases hgt : c = '>'
      · subst hgt
        rcases hform with hd | hdot | hp | hm
        · exact absurd hd (by decide)
        · exact absurd hdot (by decide)
        · exact absurd hp (by decide)
        · exact absurd hm (by decide)
      · simp [hlt, hgt]
/-- C6: every `fee_amount` value is scaled by 1000 in exact decimal
arithmetic, both in range clauses and in scalar term clauses. -/
theorem expand_query_fee_amount_scaled (s op rest opName : String) (d : Rat)
    (v : PyVal) (d2 : Rat)
    (hhead : headIsOp s = true) (hsplit : rangeSplit s = (op, rest))
    (hop : opsLookup op = some opName) (hd : parseDecimal rest = some d)
    (hv : pyDecimal v = some d2) :
    expand_query [("fee_amount", PyVal.str s)] =
      some (bareQuery [rangeClause "fee_amount" opName (PyVal.dec (d * 1000))] []) ∧
    expand_query [("fee_amount", v)] =
      some (bareQuery [termClause "fee_amount" (PyVal.dec (d2 * 1000))] []) := by
  constructor
  · obtain ⟨sd⟩ := s
    cases sd with
    | nil => simp [headIsOp] at hhead
    | cons c cs =>
      have hcop : (c = '<' || c = '>') = true := hhead
      have hpe : processEntry ⟨[], [], Option.none⟩
          ("fee_amount", PyVal.str (String.mk (c :: cs))) =
          some ⟨[rangeClause "fee_amount" opName (PyVal.dec (d * 1000))], [],
            Option.none⟩ := by
        rw [show processEntry ⟨[], [], Option.none⟩
            ("fee_amount", PyVal.str (String.mk (c :: cs))) =
          (if (c = '<' || c = '>') = true then
            Option.bind ((parseDecimal
                (rangeSplit (String.mk (c :: cs))).2).map
                (fun x => PyVal.dec (x * 1000)))
              (fun v' => Option.bind
                (opsLookup (rangeSplit (String.mk (c :: cs))).1)
                (fun onm => some ⟨[rangeClause "fee_amount" onm v'], [],
                  Option.none⟩))
          else emitPlain ⟨[], [], Option.none⟩ "fee_amount"
            (PyVal.str (String.mk (c :: cs))) false) from rfl]
        rw [if_pos hcop, hsplit]
        simp only [hd, hop, Option.map_some', Option.some_bind]
      rw [show expand_query [("fee_amount", PyVal.str (String.mk (c :: cs)))] =
        Option.bind (Option.bind (processEntry ⟨[], [], Option.none⟩
          ("fee_amount", PyVal.str (String.mk (c :: cs))))
          (fun st' => runEntries st' []))
          (fun st => assemble [("fee_amount", PyVal.str (String.mk (c :: cs)))] st)
        from rfl]
      rw [hpe]
      rfl
  · have hpe : processEntry ⟨[], [], Option.none⟩ ("fee_amount", v) =
        some ⟨[termClause "fee_amount" (PyVal.dec (d2 * 1000))], [],
          Option.none⟩ := by
      cases v with
      | str s2 =>
        obtain ⟨c, cs, hsd, hcop⟩ := parseDecimal_shape s2 d2 hv
        obtain ⟨sd⟩ := s2
        simp only at hsd
        subst hsd
        rw [show processEntry ⟨[], [], Option.none⟩
            ("fee_amount", PyVal.str (String.mk (c :: cs))) =
          (if (c = '<' || c = '>') = true then
            Option.bind ((parseDecimal
                (rangeSplit (String.mk (c :: cs))).2).map
                (fun x => PyVal.dec (x * 1000)))
              (fun v' => Option.bind
                (opsLookup (rangeSplit (String.mk (c :: cs))).1)
                (fun onm => some ⟨[rangeClause "fee_amount" onm v'], [],
                  Option.none⟩))
          else emitPlain ⟨[], [], Option.none⟩ "fee_amount"
            (PyVal.str (String.mk (c :: cs))) false) from rfl]
        rw [if_neg (by rw [hcop]; exact Bool.false_ne_true)]
        rw [show emitPlain ⟨[], [], Option.none⟩ "fee_amount"
            (PyVal.str (String.mk (c :: cs))) false =
          Option.bind ((pyDecimal (PyVal.str (String.mk (c :: cs)))).map
            (fun x => PyVal.dec (x * 1000)))
            (fun v' => some ⟨[termClause "fee_amount" v'], [], Option.none⟩)
          from rfl]
        rw [hv]
        rfl
      | int n =>
        rw [show processEntry ⟨[], [], Option.none⟩ ("fee_amount", PyVal.int n) =
          Option.bind ((pyDecimal (PyVal.int n)).map
            (fun x => PyVal.dec (x * 1000)))
            (fun v' => some ⟨[termClause "fee_amount" v'], [], Option.none⟩)
          from rfl, hv]
        rfl
      | bool b =>
        rw [show processEntry ⟨[], [], Option.none⟩ ("fee_amount", PyVal.bool b) =
          Option.bind ((pyDecimal (PyVal.bool b)).map
            (fun x => PyVal.dec (x * 1000)))
            (fun v' => some ⟨[termClause "fee_amount" v'], [], Option.none⟩)
          from rfl, hv]
        rfl
      | dec q =>
        rw [show processEntry ⟨[], [], Option.none⟩ ("fee_amount", PyVal.dec q) =
          Option.bind ((pyDecimal (PyVal.dec q)).map
            (fun x => PyVal.dec (x * 1000)))
            (fun v' => some ⟨[termClause "fee_amount" v'], [], Option.none⟩)
          from rfl, hv]
        rfl
      | none => simp [pyDecimal] at hv
      | bytes bs => simp [pyDecimal] at hv
      | list xs => simp [pyDecimal] at hv
      | dict entries => simp [pyDecimal] at hv
    rw [show expand_query [("fee_amount", v)] =
      Option.bind (Option.bind (processEntry ⟨[], [], Option.none⟩
        ("fee_amount", v)) (fun st' => runEntries st' []))
        (fun st => assemble [("fee_amount", v)] st) from rfl]
    rw [hpe]
    rfl

/-- Witness for `expand_query_fee_amount_scaled`: `fee_amount='>1.5'`
compiles to a range clause with `gt` 1500 (thousandths), and the scalar
`fee_amount=3` to a term with value 3000. -/
theorem expand_query_fee_amount_scaled_witness :
    expand_query [("fee_amount", PyVal.str ">1.5")] =
      some (bareQuery [rangeClause "fee_amount" "gt" (PyVal.dec 1500)] []) ∧
    expand_query [("fee_amount", PyVal.int 3)] =
      some (bareQuery [termClause "fee_amount" (PyVal.dec 3000)] []) := by
  have hd15 : parseDecimal "1.5" = some (3 / 2) := by
    show parseUnsignedDec ['1', '.', '5'] = some (3 / 2)
    have e1 : digitsToNat ['1'] = 1 := rfl
    have e5 : digitsToNat ['5'] = 5 := rfl
    rw [show parseUnsignedDec ['1', '.', '5'] =
      some (((digitsToNat ['1'] : Nat) : Rat) +
        ((digitsToNat ['5'] : Nat) : Rat) /
          ((10 : Rat) ^ (['5'] : List Char).length)) from rfl, e1, e5]
    simp only [Option.some.injEq, List.length_cons, List.length_nil]
    norm_num
  have h := expand_query_fee_amount_scaled ">1.5" ">" "1.5" "gt" (3 / 2)
    (PyVal.int 3) 3 rfl rfl rfl hd15 rfl
  norm_num at h
  exact h
/-- C7: if the backend reports not-found for the index (missing index or
no documents), `search` returns the empty page `([], 0, 0)` rather than
propagating the error. -/
theorem search_not_found_returns_empty (resolveO : PyVal → Option Res)
    (backendO : PyVal → SearchOutcome) (kwargs : List (String × PyVal))
    (r : List ExpandedDoc × Int × PyVal)
    (hnf : ∀ b, backendO b = SearchOutcome.notFound)
    (h : search resolveO backendO kwargs = some r) :
    r = ([], 0, PyVal.int 0) := by
  unfold search at h
  by_cases hch : acontains kwargs "channel"
  · rw [if_pos hch] at h
    cases hro : resolveO (agetD kwargs "channel") with
    | none => rw [hro] at h; simp at h
    | some rr =>
      rw [hro] at h
      dsimp only [] at h
      by_cases hit : (!rr.truthyRes || !rr.iterable) = true
      · rw [if_pos hit] at h
        dsimp only [] at h
        simp only [Option.some.injEq] at h
        exact h.symm
      · rw [if_neg hit] at h
        cases rr with
        | py v =>
          dsimp only [] at h
          cases hgi : pyGetItem v "claim_id" with
          | none => rw [hgi] at h; simp at h
          | some cid =>
            rw [hgi] at h
            dsimp only [] at h
            cases he : expand_query
                (aset (apop kwargs "channel") "channel_id" cid) with
            | none => rw [he] at h; simp at h
            | some body =>
              rw [he] at h
              dsimp only [] at h
              rw [hnf body] at h
              dsimp only [] at h
              simp only [Option.some.injEq] at h
              exact h.symm
        | lookupErr m => dsimp only [] at h; simp at h
        | valueErr m => dsimp only [] at h; simp at h
  · rw [if_neg hch] at h
    dsimp only [] at h
    cases he : expand_query kwargs with
    | none => rw [he] at h; simp at h
    | some body =>
      rw [he] at h
      dsimp only [] at h
      rw [hnf body] at h
      dsimp only [] at h
      simp only [Option.some.injEq] at h
      exact h.symm
/-- Witness for `search_not_found_returns_empty` on a concrete query
against a backend that reports not-found for everything. -/
theorem search_not_found_returns_empty_witness :
    search (fun _ => some (Res.py PyVal.none)) (fun _ => SearchOutcome.notFound)
      [("name", PyVal.str "x")] = some ([], 0, PyVal.int 0) ∧
    (([], 0, PyVal.int 0) : List ExpandedDoc × Int × PyVal) =
      ([], 0, PyVal.int 0) :=
  ⟨rfl, search_not_found_returns_empty (fun _ => some (Res.py PyVal.none))
    (fun _ => SearchOutcome.notFound) [("name", PyVal.str "x")]
    ([], 0, PyVal.int 0) (fun _ => rfl) rfl⟩

theorem to_dict_claim_id (p : URLPart) :
    alookup p.to_dict "claim_id" = p.claim_id.map PyVal.str := by
  unfold URLPart.to_dict
  cases p.name <;> cases p.claim_id <;> cases p.sequence <;>
    cases p.amount_order <;> simp [alookup]

/-- C9: a stream segment carrying a full 40-character claim id is fetched
directly via `get_many` and returned whenever it exists (is truthy) — the
`channel_id` / `signature_valid` constraints of the search path are never
applied, and the result does not depend on the channel context beyond its
mere presence. -/
theorem resolve_stream_full_claim_id_direct (ctx : ResolveCtx)
    (url : ParsedURL) (stPart : URLPart) (s : String) (doc : PyVal)
    (rest : List PyVal) (cid : Option String)
    (hst : url.stream = some stPart)
    (hcid : stPart.claim_id = some s) (hlen : s.data.length = 40)
    (hgm : ctx.get_many s = some (doc :: rest)) (hdoc : truthy doc = true)
    (hch : url.has_channel = true → cid.isSome = true) :
    resolve_stream ctx url cid = some (some doc, ctx.search_cache) := by
  have hcond : (url.has_channel && cid.isNone) = false := by
    cases hc : url.has_channel
    · rfl
    · have hs := hch hc
      cases cid with
      | none => simp at hs
      | some c => rfl
  unfold resolve_stream
  rw [hst]
  dsimp only []
  simp only [hcond, Bool.false_eq_true, if_false]
  rw [to_dict_claim_id, hcid]
  simp only [Option.map_some']
  rw [if_pos hlen, hgm]
  dsimp only []
  simp only [List.head?_cons]
  unfold resolveStreamTail
  simp only [hdoc, Bool.not_true, if_false]
  rfl
theorem channelQuery_claim_id (ch : URLPart) :
    alookup (channelQuery ch) "claim_id" = ch.claim_id.map PyVal.str := by
  unfold channelQuery
  by_cases hnk : onlyNameKey ch.to_dict
  · rw [if_pos hnk, alookup_aset_ne _ _ _ _ (by decide), to_dict_claim_id]
  · rw [if_neg hnk, alookup_aset_ne _ _ _ _ (by decide), to_dict_claim_id]

theorem resolve_channel_id_cases (ctx : ResolveCtx) (url : ParsedURL)
    (res : Res) (cache : List (String × PyVal))
    (hcache : ∀ k v, alookup ctx.channel_cache k = some v →
      ∃ s, v = PyVal.str s)
    (hsearch : ∀ q ms m, ctx.searchO q = some ms → m ∈ ms →
      ∃ s, pyGetItem m "claim_id" = some (PyVal.str s))
    (h : resolve_channel_id ctx url = some (res, cache)) :
    (url.channel = Option.none ∧ res = Res.py PyVal.none) ∨
    (∃ s, res = Res.py (PyVal.str s)) ∨
    res = Res.lookupErr (channelNotFoundMsg url) := by
  unfold resolve_channel_id at h
  cases hc : url.channel with
  | none =>
    rw [hc] at h
    dsimp only [] at h
    simp only [Option.some.injEq, Prod.mk.injEq] at h
    exact Or.inl ⟨rfl, h.1.symm⟩
  | some ch =>
    rw [hc] at h
    dsimp only [] at h
    cases hl : alookup ctx.channel_cache ("cid:" ++ ch.toStr) with
    | some v =>
      rw [hl] at h
      dsimp only [] at h
      simp only [Option.some.injEq, Prod.mk.injEq] at h
      obtain ⟨s, hs⟩ := hcache _ _ hl
      exact Or.inr (Or.inl ⟨s, by rw [← h.1, hs]⟩)
    | none =>
      rw [hl] at h
      dsimp only [] at h
      by_cases hlen : cidLenOf (channelQuery ch) ≠ 40
      · rw [if_pos hlen] at h
        cases hso : ctx.searchO (aset (channelQuery ch) "limit" (PyVal.int 1)) with
        | none => rw [hso] at h; simp at h
        | some ms =>
          rw [hso] at h
          cases ms with
          | nil =>
            dsimp only [] at h
            simp only [Option.some.injEq, Prod.mk.injEq] at h
            exact Or.inr (Or.inr h.1.symm)
          | cons m rest =>
            dsimp only [] at h
            cases hgi : pyGetItem m "claim_id" with
            | none => rw [hgi] at h; simp at h
            | some cid =>
              rw [hgi] at h
              dsimp only [] at h
              simp only [Option.some.injEq, Prod.mk.injEq] at h
              obtain ⟨s, hgi'⟩ := hsearch _ _ m hso (by simp)
              rw [hgi] at hgi'
              injection hgi' with hgi'
              exact Or.inr (Or.inl ⟨s, by rw [← h.1, hgi']⟩)
      · rw [if_neg hlen] at h
        rw [channelQuery_claim_id] at h
        cases hci : ch.claim_id with
        | none => rw [hci] at h; simp at h
        | some s =>
          rw [hci] at h
          simp only [Option.map_some', Option.some.injEq, Prod.mk.injEq] at h
          exact Or.inr (Or.inl ⟨s, h.1.symm⟩)
/-- C8: for a URL whose parsed form has no stream segment, `resolve_url`
returns either a claim document (the head of `get_many` on the resolved
channel id) or the channel-not-found lookup error — never the
stream-not-found (`Could not find claim at ...`) error.  The caches and
the search collaborator are assumed well formed: the channel cache holds
claim-id strings, and search hits carry string `claim_id` fields. -/
theorem resolve_url_no_stream_result (parseO : String → Except String ParsedURL)
    (ctx : ResolveCtx) (raw : String) (url : ParsedURL) (res : Res)
    (hp : parseO raw = Except.ok url)
    (hwf : url.channel.isSome ∨ url.stream.isSome)
    (hns : url.stream = Option.none)
    (hcache : ∀ k v, alookup ctx.channel_cache k = some v →
      ∃ s, v = PyVal.str s)
    (hsearch : ∀ q ms m, ctx.searchO q = some ms → m ∈ ms →
      ∃ s, pyGetItem m "claim_id" = some (PyVal.str s))
    (h : resolve_url parseO ctx raw = some res) :
    (∃ s rs d, ctx.get_many s = some (d :: rs) ∧ res = Res.py d) ∨
    res = Res.lookupErr (channelNotFoundMsg url) := by
  unfold resolve_url at h
  rw [hp] at h
  dsimp only [] at h
  cases hrc : resolve_channel_id ctx url with
  | none => rw [hrc] at h; simp at h
  | some pr =>
    obtain ⟨cidRes, ccache⟩ := pr
    rw [hrc] at h
    dsimp only [] at h
    rcases resolve_channel_id_cases ctx url cidRes ccache hcache hsearch hrc with
      ⟨hnone, _⟩ | ⟨s, hres⟩ | hres
    · rcases hwf with hwc | hws
      · rw [hnone] at hwc; simp at hwc
      · rw [hns] at hws; simp at hws
    · subst hres
      dsimp only [] at h
      have hrs : resolve_stream { ctx with channel_cache := ccache } url
          (some s) = some (Option.none, ctx.search_cache) := by
        unfold resolve_stream
        rw [hns]
      rw [hrs] at h
      dsimp only [] at h
      have hhs : url.has_stream = false := by
        unfold ParsedURL.has_stream
        rw [hns]
        rfl
      rw [hhs] at h
      simp only [Bool.false_eq_true, if_false] at h
      cases hgm : ctx.get_many s with
      | none => rw [hgm] at h; simp at h
      | some rs =>
        rw [hgm] at h
        cases rs with
        | nil =>
          dsimp only [] at h
          simp only [Option.some.injEq] at h
          exact Or.inr h.symm
        | cons d rest =>
          dsimp only [] at h
          simp only [Option.some.injEq] at h
          exact Or.inl ⟨s, rest, d, hgm, h.symm⟩
    · subst hres
      dsimp only [] at h
      simp only [Option.some.injEq] at h
      exact Or.inr h.symm
/-- Witness for `resolve_url_no_stream_result`: a channel-only URL whose
channel cannot be found resolves to the channel-not-found error. -/
theorem resolve_url_no_stream_result_witness :
    resolve_url
      (fun _ => Except.ok ⟨some ⟨some "@a", Option.none, Option.none,
        Option.none⟩, Option.none⟩)
      ⟨[], [], fun _ => some [], fun _ => some []⟩ "@a" =
      some (Res.lookupErr (channelNotFoundMsg ⟨some ⟨some "@a", Option.none,
        Option.none, Option.none⟩, Option.none⟩)) := by
  rcases resolve_url_no_stream_result
      (fun _ => Except.ok ⟨some ⟨some "@a", Option.none, Option.none,
        Option.none⟩, Option.none⟩)
      ⟨[], [], fun _ => some [], fun _ => some []⟩ "@a"
      ⟨some ⟨some "@a", Option.none, Option.none, Option.none⟩, Option.none⟩
      (Res.lookupErr (channelNotFoundMsg ⟨some ⟨some "@a", Option.none,
        Option.none, Option.none⟩, Option.none⟩))
      rfl (Or.inl rfl) rfl
      (fun k v hv => by simp [alookup] at hv)
      (fun q ms m hq hm => by
        injection hq with hq
        rw [← hq] at hm
        exact absurd hm (by simp))
      rfl with hL | _
  · obtain ⟨s, rs, d, hg, he⟩ := hL
    exact Res.noConfusion he
  · rfl

/-- Witness for `resolve_stream_full_claim_id_direct`: a stream segment
with a full claim id inside an unrelated channel resolves to the
`get_many` document. -/
theorem resolve_stream_full_claim_id_direct_witness :
    resolve_stream
      ⟨[], [], fun _ => some [], fun k =>
        if k = "aaaaaaaaaaaaaaaaaaaaaaaaaaaaaaaaaaaaaaaa" then
          some [PyVal.dict [("claim_id",
            PyVal.str "aaaaaaaaaaaaaaaaaaaaaaaaaaaaaaaaaaaaaaaa")]]
        else some []⟩
      ⟨some ⟨some "@chan", Option.none, Option.none, Option.none⟩,
       some ⟨some "song",
         some "aaaaaaaaaaaaaaaaaaaaaaaaaaaaaaaaaaaaaaaa",
         Option.none, Option.none⟩⟩
      (some "bbbbbbbbbbbbbbbbbbbbbbbbbbbbbbbbbbbbbbbb") =
      some (some (PyVal.dict [("claim_id",
        PyVal.str "aaaaaaaaaaaaaaaaaaaaaaaaaaaaaaaaaaaaaaaa")]), []) :=
  resolve_stream_full_claim_id_direct
    ⟨[], [], fun _ => some [], fun k =>
      if k = "aaaaaaaaaaaaaaaaaaaaaaaaaaaaaaaaaaaaaaaa" then
        some [PyVal.dict [("claim_id",
          PyVal.str "aaaaaaaaaaaaaaaaaaaaaaaaaaaaaaaaaaaaaaaa")]]
      else some []⟩
    ⟨some ⟨some "@chan", Option.none, Option.none, Option.none⟩,
     some ⟨some "song",
       some "aaaaaaaaaaaaaaaaaaaaaaaaaaaaaaaaaaaaaaaa",
       Option.none, Option.none⟩⟩
    ⟨some "song", some "aaaaaaaaaaaaaaaaaaaaaaaaaaaaaaaaaaaaaaaa",
      Option.none, Option.none⟩
    "aaaaaaaaaaaaaaaaaaaaaaaaaaaaaaaaaaaaaaaa"
    (PyVal.dict [("claim_id",
      PyVal.str "aaaaaaaaaaaaaaaaaaaaaaaaaaaaaaaaaaaaaaaa")])
    [] (some "bbbbbbbbbbbbbbbbbbbbbbbbbbbbbbbbbbbbbbbb")
    rfl rfl (by decide) rfl rfl (fun _ => rfl)
theorem mem_aset (d : List (String × PyVal)) (k : String) (v : PyVal)
    (p : String × PyVal) (h : p ∈ aset d k v) : p = (k, v) ∨ p ∈ d := by
  unfold aset at h
  split at h
  · obtain ⟨q, hq, hpq⟩ := List.mem_map.mp h
    by_cases hk : q.1 = k
    · rw [if_pos hk] at hpq; exact Or.inl hpq.symm
    · rw [if_neg hk] at hpq; exact Or.inr (hpq ▸ hq)
  · rcases List.mem_append.mp h with hd | hs
    · exact Or.inr hd
    · exact Or.inl (List.mem_singleton.mp hs)

theorem adictOf_sub_aux (p : String × PyVal) (l : List (String × PyVal)) :
    ∀ acc : List (String × PyVal),
      p ∈ l.foldl (fun d kv => aset d kv.1 kv.2) acc → p ∈ acc ∨ p ∈ l := by
  induction l with
  | nil => intro acc hm; exact Or.inl hm
  | cons x xs ih =>
    intro acc hm
    rw [List.foldl_cons] at hm
    rcases ih (aset acc x.1 x.2) hm with hacc | hxs
    · rcases mem_aset acc x.1 x.2 p hacc with he | hin
      · exact Or.inr (by rw [he]; exact List.mem_cons_self _ _)
      · exact Or.inl hin
    · exact Or.inr (List.mem_cons_of_mem _ hxs)

theorem adictOf_sub (l : List (String × PyVal)) (p : String × PyVal)
    (h : p ∈ adictOf l) : p ∈ l := by
  unfold adictOf at h
  rcases adictOf_sub_aux p l [] h with hacc | hl
  · exact absurd hacc (by simp)
  · exact hl

theorem aset_ne_nil (d : List (String × PyVal)) (k : String) (v : PyVal) :
    aset d k v ≠ [] := by
  unfold aset
  split
  · intro hm
    rename_i hc
    cases d with
    | nil => simp [acontains, alookup] at hc
    | cons x xs => simp at hm
  · intro hm
    simp at hm

theorem foldl_aset_ne_nil (xs : List (String × PyVal)) :
    ∀ acc : List (String × PyVal), acc ≠ [] →
      xs.foldl (fun d kv => aset d kv.1 kv.2) acc ≠ [] := by
  induction xs with
  | nil => intro acc ha; simpa using ha
  | cons y ys ih =>
    intro acc _
    rw [List.foldl_cons]
    exact ih _ (aset_ne_nil _ _ _)

theorem adictOf_ne_nil (l : List (String × PyVal)) (h : l ≠ []) :
    adictOf l ≠ [] := by
  unfold adictOf
  cases l with
  | nil => exact absurd rfl h
  | cons x xs =>
    rw [List.foldl_cons]
    exact foldl_aset_ne_nil xs (aset [] x.1 x.2) (aset_ne_nil _ _ _)

theorem hexStr_ne_empty (bs : List Nat) (h : bs ≠ []) : hexStr bs ≠ "" := by
  cases bs with
  | nil => exact absurd rfl h
  | cons b rest =>
    unfold hexStr hexChars
    intro he
    have : (toHexDigit (b / 16) :: toHexDigit (b % 16) :: hexChars rest) =
        ([] : List Char) := congrArg String.data he
    simp at this

theorem censorKeys_truthy (bd : List (List Nat × List Nat))
    (hk : ∀ p ∈ bd, p.1 ≠ []) :
    ∀ x ∈ censorKeys bd, truthy x = true := by
  intro x hx
  obtain ⟨kv, hkv, hxe⟩ := List.mem_map.mp hx
  have hin : kv ∈ bd.map (fun kv =>
      (hexStr kv.1.reverse, PyVal.str (hexStr kv.2.reverse))) :=
    adictOf_sub _ _ hkv
  obtain ⟨p, hp, hpe⟩ := List.mem_map.mp hin
  have h1 : kv.1 = hexStr p.1.reverse := by rw [← hpe]
  have hne : hexStr p.1.reverse ≠ "" :=
    hexStr_ne_empty _ (by
      intro hrev
      exact hk p hp (by simpa using congrArg List.reverse hrev))
  rw [← hxe, h1]
  simp only [truthy]
  simpa using hne

theorem censorKeys_ne_nil (bd : List (List Nat × List Nat)) (h : bd ≠ []) :
    censorKeys bd ≠ [] := by
  unfold censorKeys
  intro he
  have : hexDictOf bd = [] := by
    cases hd : hexDictOf bd
    · rfl
    · rw [hd] at he; simp at he
  exact adictOf_ne_nil _ (by
    intro hm
    exact h (by cases bd with | nil => rfl | cons x xs => simp at hm)) this
theorem make_query_closed (ct : Nat) (bd : List (List Nat × List Nat))
    (channels : Bool)
    (hk : ∀ p ∈ bd, p.1 ≠ []) (hne : bd ≠ [])
    (hrs : rangeSplit ("<" ++ toString ct) = ("<", toString ct)) :
    make_query ct bd channels = some (mkFilterBody ct bd channels) := by
  have hfil : (censorKeys bd).filter truthy = censorKeys bd :=
    List.filter_eq_self.mpr (censorKeys_truthy bd hk)
  have hni : (censorKeys bd).isEmpty = false := by
    cases hkk : censorKeys bd with
    | nil => exact absurd hkk (censorKeys_ne_nil bd hne)
    | cons a rest => rfl
  cases channels with
  | false =>
    have hpe1 : processEntry ⟨[], [], Option.none⟩
        ("claim_id__in", PyVal.list (censorKeys bd)) =
        (if ((censorKeys bd).filter truthy).isEmpty = true then
          some ⟨[], [], Option.none⟩
         else some ⟨[termsClause "claim_id.keyword"
           (PyVal.list ((censorKeys bd).filter truthy))], [],
           Option.none⟩) := rfl
    rw [hfil, hni] at hpe1
    simp only [Bool.false_eq_true, if_false] at hpe1
    have hpe2 : processEntry
        ⟨[termsClause "claim_id.keyword" (PyVal.list (censorKeys bd))], [],
          Option.none⟩
        ("censor_type", PyVal.str ("<" ++ toString ct)) =
        some ⟨[termsClause "claim_id.keyword" (PyVal.list (censorKeys bd)),
          rangeClause "censor_type" "lt" (PyVal.str (toString ct))], [],
          Option.none⟩ := by
      rw [show processEntry
          ⟨[termsClause "claim_id.keyword" (PyVal.list (censorKeys bd))], [],
            Option.none⟩
          ("censor_type", PyVal.str ("<" ++ toString ct)) =
        Option.bind (opsLookup (rangeSplit ("<" ++ toString ct)).1)
          (fun opName => some ⟨[termsClause "claim_id.keyword"
            (PyVal.list (censorKeys bd)),
            rangeClause "censor_type" opName
              (PyVal.str (rangeSplit ("<" ++ toString ct)).2)], [],
            Option.none⟩) from rfl, hrs]
      rfl
    have hq : expand_query
        [("claim_id__in", PyVal.list (censorKeys bd)),
         ("censor_type", PyVal.str ("<" ++ toString ct))] =
        some (bareQuery [termsClause "claim_id.keyword"
          (PyVal.list (censorKeys bd)),
          rangeClause "censor_type" "lt" (PyVal.str (toString ct))] []) := by
      rw [expand_query_bind]
      rw [show preamble [("claim_id__in", PyVal.list (censorKeys bd)),
        ("censor_type", PyVal.str ("<" ++ toString ct))] =
        some [("claim_id__in", PyVal.list (censorKeys bd)),
          ("censor_type", PyVal.str ("<" ++ toString ct))] from rfl]
      simp only [Option.some_bind, runEntries_cons, hpe1, hpe2,
        runEntries_nil]
      rfl
    unfold make_query
    rw [hq]
    rfl
  | true =>
    have hpe1 : processEntry ⟨[], [], Option.none⟩
        ("channel_id__in", PyVal.list (censorKeys bd)) =
        (if ((censorKeys bd).filter truthy).isEmpty = true then
          some ⟨[], [], Option.none⟩
         else some ⟨[termsClause "channel_id.keyword"
           (PyVal.list ((censorKeys bd).filter truthy))], [],
           Option.none⟩) := rfl
    rw [hfil, hni] at hpe1
    simp only [Bool.false_eq_true, if_false] at hpe1
    have hpe2 : processEntry
        ⟨[termsClause "channel_id.keyword" (PyVal.list (censorKeys bd))], [],
          Option.none⟩
        ("censor_type", PyVal.str ("<" ++ toString ct)) =
        some ⟨[termsClause "channel_id.keyword" (PyVal.list (censorKeys bd)),
          rangeClause "censor_type" "lt" (PyVal.str (toString ct))], [],
          Option.none⟩ := by
      rw [show processEntry
          ⟨[termsClause "channel_id.keyword" (PyVal.list (censorKeys bd))], [],
            Option.none⟩
          ("censor_type", PyVal.str ("<" ++ toString ct)) =
        Option.bind (opsLookup (rangeSplit ("<" ++ toString ct)).1)
          (fun opName => some ⟨[termsClause "channel_id.keyword"
            (PyVal.list (censorKeys bd)),
            rangeClause "censor_type" opName
              (PyVal.str (rangeSplit ("<" ++ toString ct)).2)], [],
            Option.none⟩) from rfl, hrs]
      rfl
    have hq : expand_query
        [("channel_id__in", PyVal.list (censorKeys bd)),
         ("censor_type", PyVal.str ("<" ++ toString ct))] =
        some (bareQuery [termsClause "channel_id.keyword"
          (PyVal.list (censorKeys bd)),
          rangeClause "censor_type" "lt" (PyVal.str (toString ct))] []) := by
      rw [expand_query_bind]
      rw [show preamble [("channel_id__in", PyVal.list (censorKeys bd)),
        ("censor_type", PyVal.str ("<" ++ toString ct))] =
        some [("channel_id__in", PyVal.list (censorKeys bd)),
          ("censor_type", PyVal.str ("<" ++ toString ct))] from rfl]
      simp only [Option.some_bind, runEntries_cons, hpe1, hpe2,
        runEntries_nil]
      rfl
    unfold make_query
    rw [hq]
    rfl
/-- C3: for a non-empty `blocked_channels` map, `apply_filters` issues
exactly two update-by-query requests for it — the first filtering by
`claim_id` over the map's (hexed) keys, the second by `channel_id` — each
carrying the painless script that sets `censor_type=2` and
`censoring_channel_hash=params[that key]`, each gated by `censor_type<2`,
each followed by a refresh; and the severity-1 (filtered) updates precede
the severity-2 (blocked) updates in the request trace. -/
theorem apply_filters_blocked_channels_trace (idx : String)
    (bs bc fs fc : List (List Nat × List Nat))
    (hkey : ∀ p ∈ bs ++ bc ++ fs ++ fc, p.1.length = 20)
    (hne : bc ≠ []) :
    apply_filters idx bs bc fs fc = some (
      (if fs.isEmpty then [] else
        [ESRequest.update_by_query idx (mkFilterBody 1 fs false) 32,
         ESRequest.refresh idx]) ++
      (if fc.isEmpty then [] else
        [ESRequest.update_by_query idx (mkFilterBody 1 fc false) 32,
         ESRequest.refresh idx,
         ESRequest.update_by_query idx (mkFilterBody 1 fc true) 32,
         ESRequest.refresh idx]) ++
      (if bs.isEmpty then [] else
        [ESRequest.update_by_query idx (mkFilterBody 2 bs false) 32,
         ESRequest.refresh idx]) ++
      [ESRequest.update_by_query idx (mkFilterBody 2 bc false) 32,
       ESRequest.refresh idx,
       ESRequest.update_by_query idx (mkFilterBody 2 bc true) 32,
       ESRequest.refresh idx]) ∧
    pyGetItem (mkFilterBody 2 bc false) "script" =
      some (censorScript 2 "claim_id" bc) ∧
    pyGetItem (mkFilterBody 2 bc true) "script" =
      some (censorScript 2 "channel_id" bc) ∧
    censorScript 2 "claim_id" bc = PyVal.dict [
      ("source", PyVal.str
        "ctx._source.censor_type=2; ctx._source.censoring_channel_hash=params[ctx._source.claim_id]"),
      ("lang", PyVal.str "painless"),
      ("params", PyVal.dict (hexDictOf bc))] ∧
    censorScript 2 "channel_id" bc = PyVal.dict [
      ("source", PyVal.str
        "ctx._source.censor_type=2; ctx._source.censoring_channel_hash=params[ctx._source.channel_id]"),
      ("lang", PyVal.str "painless"),
      ("params", PyVal.dict (hexDictOf bc))] ∧
    rangeClause "censor_type" "lt" (PyVal.str "2") ∈
      mustListOf (mkFilterBody 2 bc false) ∧
    rangeClause "censor_type" "lt" (PyVal.str "2") ∈
      mustListOf (mkFilterBody 2 bc true) ∧
    termsClause "claim_id.keyword" (PyVal.list (censorKeys bc)) ∈
      mustListOf (mkFilterBody 2 bc false) ∧
    termsClause "channel_id.keyword" (PyVal.list (censorKeys bc)) ∈
      mustListOf (mkFilterBody 2 bc true) := by
  have hkbs : ∀ p ∈ bs, p.1 ≠ [] := fun p hp => by
    have := hkey p (by simp [hp])
    intro hnil; rw [hnil] at this; simp at this
  have hkbc : ∀ p ∈ bc, p.1 ≠ [] := fun p hp => by
    have := hkey p (by simp [hp])
    intro hnil; rw [hnil] at this; simp at this
  have hkfs : ∀ p ∈ fs, p.1 ≠ [] := fun p hp => by
    have := hkey p (by simp [hp])
    intro hnil; rw [hnil] at this; simp at this
  have hkfc : ∀ p ∈ fc, p.1 ≠ [] := fun p hp => by
    have := hkey p (by simp [hp])
    intro hnil; rw [hnil] at this; simp at this
  have hbcE : bc.isEmpty = false := by
    cases hb : bc with
    | nil => exact absurd hb hne
    | cons a rest => rfl
  refine ⟨?_, rfl, rfl, rfl, rfl, ?_, ?_, ?_, ?_⟩
  · have mbc1 : make_query 2 bc false = some (mkFilterBody 2 bc false) :=
      make_query_closed 2 bc false hkbc hne rfl
    have mbc2 : make_query 2 bc true = some (mkFilterBody 2 bc true) :=
      make_query_closed 2 bc true hkbc hne rfl
    have nefs : fs.isEmpty = false → fs ≠ [] := by
      intro h hn; rw [hn] at h; simp at h
    have nefc : fc.isEmpty = false → fc ≠ [] := by
      intro h hn; rw [hn] at h; simp at h
    have nebs : bs.isEmpty = false → bs ≠ [] := by
      intro h hn; rw [hn] at h; simp at h
    unfold apply_filters
    by_cases hfs : fs.isEmpty <;> by_cases hfc : fc.isEmpty <;> by_cases hbs : bs.isEmpty
    · simp [hfs, hfc, hbs, hbcE, mbc1, mbc2]
    · simp only [Bool.not_eq_true] at hbs
      simp [hfs, hfc, hbs, hbcE, mbc1, mbc2,
        make_query_closed 2 bs false hkbs (nebs hbs) rfl]
    · simp only [Bool.not_eq_true] at hfc
      simp [hfs, hfc, hbs, hbcE, mbc1, mbc2,
        make_query_closed 1 fc false hkfc (nefc hfc) rfl,
        make_query_closed 1 fc true hkfc (nefc hfc) rfl]
    · simp only [Bool.not_eq_true] at hfc hbs
      simp [hfs, hfc, hbs, hbcE, mbc1, mbc2,
        make_query_closed 1 fc false hkfc (nefc hfc) rfl,
        make_query_closed 1 fc true hkfc (nefc hfc) rfl,
        make_query_closed 2 bs false hkbs (nebs hbs) rfl]
    · simp only [Bool.not_eq_true] at hfs
      simp [hfs, hfc, hbs, hbcE, mbc1, mbc2,
        make_query_closed 1 fs false hkfs (nefs hfs) rfl]
    · simp only [Bool.not_eq_true] at hfs hbs
      simp [hfs, hfc, hbs, hbcE, mbc1, mbc2,
        make_query_closed 1 fs false hkfs (nefs hfs) rfl,
        make_query_closed 2 bs false hkbs (nebs hbs) rfl]
    · simp only [Bool.not_eq_true] at hfs hfc
      simp [hfs, hfc, hbs, hbcE, mbc1, mbc2,
        make_query_closed 1 fs false hkfs (nefs hfs) rfl,
        make_query_closed 1 fc false hkfc (nefc hfc) rfl,
        make_query_closed 1 fc true hkfc (nefc hfc) rfl]
    · simp only [Bool.not_eq_true] at hfs hfc hbs
      simp [hfs, hfc, hbs, hbcE, mbc1, mbc2,
        make_query_closed 1 fs false hkfs (nefs hfs) rfl,
        make_query_closed 1 fc false hkfc (nefc hfc) rfl,
        make_query_closed 1 fc true hkfc (nefc hfc) rfl,
        make_query_closed 2 bs false hkbs (nebs hbs) rfl]
  · show _ ∈ [termsClause "claim_id.keyword" (PyVal.list (censorKeys bc)),
      rangeClause "censor_type" "lt" (PyVal.str "2")]
    exact List.mem_cons_of_mem _ (List.mem_cons_self _ _)
  · show _ ∈ [termsClause "channel_id.keyword" (PyVal.list (censorKeys bc)),
      rangeClause "censor_type" "lt" (PyVal.str "2")]
    exact List.mem_cons_of_mem _ (List.mem_cons_self _ _)
  · show _ ∈ [termsClause "claim_id.keyword" (PyVal.list (censorKeys bc)),
      rangeClause "censor_type" "lt" (PyVal.str "2")]
    exact List.mem_cons_self _ _
  · show _ ∈ [termsClause "channel_id.keyword" (PyVal.list (censorKeys bc)),
      rangeClause "censor_type" "lt" (PyVal.str "2")]
    exact List.mem_cons_self _ _

/-- Witness for C3: a single blocked channel whose claim hash is twenty bytes
of 0x05, with the other three maps empty, yields exactly the two blocked
update-by-query requests each followed by a refresh. -/
theorem apply_filters_blocked_channels_trace_witness :
    (∀ p ∈ (([] : List (List Nat × List Nat)) ++
        [(List.replicate 20 5, [1])] ++ [] ++ []), p.1.length = 20) ∧
    ([(List.replicate 20 5, [1])] : List (List Nat × List Nat)) ≠ [] ∧
    apply_filters "claims" [] [(List.replicate 20 5, [1])] [] [] = some
      [ESRequest.update_by_query "claims"
         (mkFilterBody 2 [(List.replicate 20 5, [1])] false) 32,
       ESRequest.refresh "claims",
       ESRequest.update_by_query "claims"
         (mkFilterBody 2 [(List.replicate 20 5, [1])] true) 32,
       ESRequest.refresh "claims"] :=
  ⟨by decide, by decide, by
    have h := (apply_filters_blocked_channels_trace "claims" []
      [(List.replicate 20 5, [1])] [] [] (by decide) (by decide)).1
    simpa using h⟩
theorem fromHex_toHex (d : Nat) (h : d < 16) :
    fromHexDigit (toHexDigit d) = some d := by
  interval_cases d <;> decide

theorem unhex_hex (bs : List Nat) (h : allBytes bs) :
    unhexChars (hexChars bs) = some bs := by
  induction bs with
  | nil => rfl
  | cons b tl ih =>
    have hb : b < 256 := h b (List.mem_cons_self _ _)
    have htl : allBytes tl := fun x hx => h x (List.mem_cons_of_mem _ hx)
    rw [show unhexChars (hexChars (b :: tl)) =
      Option.bind (fromHexDigit (toHexDigit (b / 16))) (fun hi =>
      Option.bind (fromHexDigit (toHexDigit (b % 16))) (fun lo =>
      Option.bind (unhexChars (hexChars tl)) (fun tl' =>
      some ((hi * 16 + lo) :: tl')))) from rfl]
    rw [fromHex_toHex _ (by omega), fromHex_toHex _ (by omega), ih htl]
    simp only [Option.some_bind]
    have hb' : b / 16 * 16 + b % 16 = b := by omega
    rw [hb']

theorem allBytes_reverse (bs : List Nat) (h : allBytes bs) :
    allBytes bs.reverse := fun x hx => h x (List.mem_reverse.mp hx)

theorem unhexlify_hexStr (bs : List Nat) (h : allBytes bs) :
    unhexlify (hexStr bs) = some bs := unhex_hex bs h

theorem unhexVal_str_hexStr (bs : List Nat) (h : allBytes bs) :
    unhexVal (PyVal.str (hexStr bs)) = some bs := unhex_hex bs h

theorem pack_unpack (a b c d : Nat) (ha : a < 256) (hb : b < 256)
    (hc : c < 256) (hd : d < 256) :
    packLE32 (a + 256 * b + 65536 * c + 16777216 * d) = some [a, b, c, d] := by
  unfold packLE32
  rw [if_pos (by omega)]
  have h1 : (a + 256 * b + 65536 * c + 16777216 * d) % 256 = a := by omega
  have h2 : (a + 256 * b + 65536 * c + 16777216 * d) / 256 % 256 = b := by omega
  have h3 : (a + 256 * b + 65536 * c + 16777216 * d) / 65536 % 256 = c := by omega
  have h4 : (a + 256 * b + 65536 * c + 16777216 * d) / 16777216 % 256 = d := by
    omega
  rw [h1, h2, h3, h4]

theorem hexOrNone_bytes (bs : List Nat) :
    hexOrNone (PyVal.bytes bs) =
      some (if bs.isEmpty then PyVal.none else PyVal.str (hexStr bs)) := by
  cases bs with
  | nil => rfl
  | cons b tl =>
    rw [show hexOrNone (PyVal.bytes (b :: tl)) =
      some (if hexStr (b :: tl) = "" then PyVal.none
        else PyVal.str (hexStr (b :: tl))) from rfl]
    rw [if_neg (hexStr_ne_empty _ (by simp))]
    rfl

theorem int_or_zero_to_int (st : Int) :
    pyToInt (if truthy (PyVal.int st) then PyVal.int st else PyVal.int 0) =
      some st := by
  by_cases h : st = 0
  · subst h; rfl
  · rw [if_pos (by simp [truthy, h])]; rfl

theorem int_or_zero (ct : Int) :
    (if truthy (PyVal.int ct) then PyVal.int ct else PyVal.int 0) =
      PyVal.int ct := by
  by_cases h : ct = 0
  · subst h; rfl
  · rw [if_pos (by simp [truthy, h])]
/-- C1 (amended): for a well-formed binary claim document, the
index/decode roundtrip restores the hash fields (claim_hash,
reposted_claim_hash, channel_hash, censoring_channel_hash), the txo_hash
(reversed tx bytes plus little-endian nout), the booleans and the
defaulted claim_type / stream_type — but the signature, signature_digest,
public_key_bytes and public_key_hash fields are NOT restored to bytes:
they come back as the stored lowercase-hex strings (or None when the
original was empty). -/
theorem int_ite_self (ct : Int) :
    (if ct = 0 then PyVal.int 0 else PyVal.int ct) = PyVal.int ct := by
  by_cases h : ct = 0
  · subst h; rfl
  · rw [if_neg h]

theorem codec_roundtrip_touched_fields (idx : String)
    (ch rep chan cen t32 sg sd pkb pkh : List Nat) (a b c d : Nat)
    (ct st : Int) (ic sv : Bool)
    (hch : allBytes ch)
    (hrep : allBytes rep) (hrepne : rep ≠ [])
    (hchan : allBytes chan) (hchanne : chan ≠ [])
    (hcen : allBytes cen) (hcenne : cen ≠ [])
    (ht32 : allBytes t32) (h32 : t32.length = 32)
    (ha : a < 256) (hb : b < 256) (hc : c < 256) (hd : d < 256) :
    ∃ u e,
      extract_doc ⟨PyVal.bytes ch, PyVal.bytes rep, PyVal.bytes chan,
        PyVal.bytes cen, PyVal.bytes (t32 ++ [a, b, c, d]), PyVal.bool ic,
        PyVal.bytes sg, PyVal.bytes sd, PyVal.bytes pkb, PyVal.bytes pkh,
        PyVal.bool sv, PyVal.int ct, PyVal.int st⟩ idx = some u ∧
      expand_result_one u.doc = some e ∧
      e.claim_hash = PyVal.bytes ch ∧
      e.reposted_claim_hash = PyVal.bytes rep ∧
      e.channel_hash = PyVal.bytes chan ∧
      e.censoring_channel_hash = PyVal.bytes cen ∧
      e.txo_hash = PyVal.bytes (t32 ++ [a, b, c, d]) ∧
      e.tx_nout = a + 256 * b + 65536 * c + 16777216 * d ∧
      e.is_controlling = ic ∧
      e.signature_valid = sv ∧
      e.claim_type = PyVal.int ct ∧
      e.stream_type = st ∧
      e.signature = (if sg.isEmpty then PyVal.none else PyVal.str (hexStr sg)) ∧
      e.signature_digest =
        (if sd.isEmpty then PyVal.none else PyVal.str (hexStr sd)) ∧
      e.public_key_bytes =
        (if pkb.isEmpty then PyVal.none else PyVal.str (hexStr pkb)) ∧
      e.public_key_hash =
        (if pkh.isEmpty then PyVal.none else PyVal.str (hexStr pkh)) := by
  obtain ⟨c0, ctl, rfl⟩ : ∃ x l, chan = x :: l := by
    cases chan with
    | nil => exact absurd rfl hchanne
    | cons x l => exact ⟨x, l, rfl⟩
  obtain ⟨e0, etl, rfl⟩ : ∃ x l, cen = x :: l := by
    cases cen with
    | nil => exact absurd rfl hcenne
    | cons x l => exact ⟨x, l, rfl⟩
  have htake : (t32 ++ [a, b, c, d]).take 32 = t32 := by
    rw [← h32]; exact List.take_left _ _
  have hdrop : (t32 ++ [a, b, c, d]).drop 32 = [a, b, c, d] := by
    rw [← h32]; exact List.drop_left _ _
  have tbc : truthy (PyVal.bytes (c0 :: ctl)) = true := rfl
  have tbe : truthy (PyVal.bytes (e0 :: etl)) = true := rfl
  have hu1 : unhexlify (hexStr ch.reverse) = some ch.reverse :=
    unhexlify_hexStr _ (allBytes_reverse _ hch)
  have hu2 : unhexlify (hexStr t32.reverse) = some t32.reverse :=
    unhexlify_hexStr _ (allBytes_reverse _ ht32)
  have tr1 : truthy (PyVal.str (hexStr rep.reverse)) = true := by
    simp only [truthy, bne_iff_ne, ne_eq]
    exact hexStr_ne_empty _ (by simpa using hrepne)
  have tu1 : unhexVal (PyVal.str (hexStr rep.reverse)) = some rep.reverse :=
    unhexVal_str_hexStr _ (allBytes_reverse _ hrep)
  have tr2 : truthy (PyVal.str (hexStr (c0 :: ctl).reverse)) = true := by
    simp only [truthy, bne_iff_ne, ne_eq]
    exact hexStr_ne_empty _ (by simp)
  have tu2 : unhexVal (PyVal.str (hexStr (c0 :: ctl).reverse)) =
      some (c0 :: ctl).reverse :=
    unhexVal_str_hexStr _ (allBytes_reverse _ hchan)
  have tr3 : truthy (PyVal.str (hexStr (e0 :: etl).reverse)) = true := by
    simp only [truthy, bne_iff_ne, ne_eq]
    exact hexStr_ne_empty _ (by simp)
  have tu3 : unhexVal (PyVal.str (hexStr (e0 :: etl).reverse)) =
      some (e0 :: etl).reverse :=
    unhexVal_str_hexStr _ (allBytes_reverse _ hcen)
  have hp : packLE32 (a + 256 * b + 65536 * c + 16777216 * d) =
      some [a, b, c, d] := pack_unpack a b c d ha hb hc hd
  refine ⟨{
      doc := {
        claim_id := hexStr ch.reverse
        reposted_claim_id := PyVal.str (hexStr rep.reverse)
        channel_id := PyVal.str (hexStr (c0 :: ctl).reverse)
        censoring_channel_hash := PyVal.str (hexStr (e0 :: etl).reverse)
        tx_id := hexStr t32.reverse
        tx_nout := a + 256 * b + 65536 * c + 16777216 * d
        is_controlling := ic
        signature := if sg.isEmpty then PyVal.none else PyVal.str (hexStr sg)
        signature_digest :=
          if sd.isEmpty then PyVal.none else PyVal.str (hexStr sd)
        public_key_bytes :=
          if pkb.isEmpty then PyVal.none else PyVal.str (hexStr pkb)
        public_key_hash :=
          if pkh.isEmpty then PyVal.none else PyVal.str (hexStr pkh)
        signature_valid := sv
        claim_type := PyVal.int ct
        stream_type := st }
      es_id := hexStr ch.reverse
      es_index := idx
      op_type := "update"
      doc_as_upsert := true }, {
      claim_id := hexStr ch.reverse
      reposted_claim_id := PyVal.str (hexStr rep.reverse)
      channel_id := PyVal.str (hexStr (c0 :: ctl).reverse)
      censoring_channel_hash := PyVal.bytes (e0 :: etl)
      tx_id := hexStr t32.reverse
      tx_nout := a + 256 * b + 65536 * c + 16777216 * d
      is_controlling := ic
      signature := if sg.isEmpty then PyVal.none else PyVal.str (hexStr sg)
      signature_digest :=
        if sd.isEmpty then PyVal.none else PyVal.str (hexStr sd)
      public_key_bytes :=
        if pkb.isEmpty then PyVal.none else PyVal.str (hexStr pkb)
      public_key_hash :=
        if pkh.isEmpty then PyVal.none else PyVal.str (hexStr pkh)
      signature_valid := sv
      claim_type := PyVal.int ct
      stream_type := st
      claim_hash := PyVal.bytes ch
      reposted_claim_hash := PyVal.bytes rep
      channel_hash := PyVal.bytes (c0 :: ctl)
      txo_hash := PyVal.bytes (t32 ++ [a, b, c, d])
      tx_hash := PyVal.bytes t32 }, ?_, ?_,
    rfl, rfl, rfl, rfl, rfl, rfl, rfl, rfl, rfl, rfl, rfl, rfl, rfl, rfl⟩
  · simp [extract_doc, hexRev, pyToInt, truthy, hdrop, htake, hexOrNone_bytes,
      int_or_zero, int_or_zero_to_int, int_ite_self, unpackLE32, tbc, tbe]
  · simp only [List.reverse_cons] at tr2 tu2 tr3 tu3
    simp [expand_result_one, hu1, hu2, tr1, tu1, tr2, tu2, tr3, tu3, hp,
      List.reverse_reverse]
/-- C1 counterexample: the roundtrip law fails on the signature triplet.
`exampleBinaryDoc` stores its signature as the raw byte `0xab`;
`extract_doc` hexes it to the string `"ab"`, and `expand_result` hands
that hex string back unchanged instead of restoring the bytes. -/
theorem codec_signature_not_restored_cx :
    ∃ u e, extract_doc exampleBinaryDoc "claims" = some u ∧
      expand_result_one u.doc = some e ∧
      exampleBinaryDoc.signature = PyVal.bytes [171] ∧
      e.signature = PyVal.str "ab" ∧
      e.signature ≠ exampleBinaryDoc.signature :=
  ⟨_, _, rfl, rfl, rfl, rfl, fun h => PyVal.noConfusion h⟩
/-- Witness for C1 at a concrete well-formed document: every hypothesis
holds and the roundtrip conclusion follows by the theorem. -/
theorem codec_roundtrip_touched_fields_witness :
    allBytes [1, 2] ∧
    allBytes [3] ∧ ([3] : List Nat) ≠ [] ∧
    allBytes [4] ∧ ([4] : List Nat) ≠ [] ∧
    allBytes [5] ∧ ([5] : List Nat) ≠ [] ∧
    allBytes (List.replicate 32 7) ∧ (List.replicate 32 7).length = 32 ∧
    5 < 256 ∧ 1 < 256 ∧ 0 < 256 ∧
    (∃ u e,
      extract_doc ⟨PyVal.bytes [1, 2], PyVal.bytes [3], PyVal.bytes [4],
        PyVal.bytes [5], PyVal.bytes (List.replicate 32 7 ++ [5, 1, 0, 0]),
        PyVal.bool true, PyVal.bytes [171], PyVal.bytes [], PyVal.bytes [9],
        PyVal.bytes [2], PyVal.bool false, PyVal.int 1, PyVal.int 2⟩
        "claims" = some u ∧
      expand_result_one u.doc = some e ∧
      e.claim_hash = PyVal.bytes [1, 2] ∧
      e.reposted_claim_hash = PyVal.bytes [3] ∧
      e.channel_hash = PyVal.bytes [4] ∧
      e.censoring_channel_hash = PyVal.bytes [5] ∧
      e.txo_hash = PyVal.bytes (List.replicate 32 7 ++ [5, 1, 0, 0]) ∧
      e.tx_nout = 5 + 256 * 1 + 65536 * 0 + 16777216 * 0 ∧
      e.is_controlling = true ∧
      e.signature_valid = false ∧
      e.claim_type = PyVal.int 1 ∧
      e.stream_type = 2 ∧
      e.signature = (if ([171] : List Nat).isEmpty then PyVal.none
        else PyVal.str (hexStr [171])) ∧
      e.signature_digest = (if ([] : List Nat).isEmpty then PyVal.none
        else PyVal.str (hexStr [])) ∧
      e.public_key_bytes = (if ([9] : List Nat).isEmpty then PyVal.none
        else PyVal.str (hexStr [9])) ∧
      e.public_key_hash = (if ([2] : List Nat).isEmpty then PyVal.none
        else PyVal.str (hexStr [2]))) :=
  ⟨by unfold allBytes; decide, by unfold allBytes; decide, by decide,
   by unfold allBytes; decide, by decide, by unfold allBytes; decide,
   by decide, by unfold allBytes; decide, by decide, by decide, by decide,
   by decide,
   codec_roundtrip_touched_fields "claims" [1, 2] [3] [4] [5]
     (List.replicate 32 7) [171] [] [9] [2] 5 1 0 0 1 2 true false
     (by unfold allBytes; decide) (by unfold allBytes; decide) (by decide)
     (by unfold allBytes; decide) (by decide) (by unfold allBytes; decide)
     (by decide) (by unfold allBytes; decide) (by decide) (by decide)
     (by decide) (by decide) (by decide)⟩
